import Mathlib

/-! Billing view of the POS front end: cart store, pricing, finalisation.

Shallow embedding of `src/components/Billing.jsx`.

Modelling conventions.

* Quantities (the results of `parseInt` and their sums) are `JSInt`, an exact
  integer or `NaN` (`none`).
* Money amounts are `JSNum`, binary64 numbers: `NaN`, an infinity, or a finite
  number given by its exact rational value; every arithmetic operation rounds
  its exact result to the nearest binary64 number, ties to even, with gradual
  underflow and overflow to infinity. The two zeros are not told apart.
* A product of the catalog snapshot is `{_id, name, price, stock}` with an
  integer stock and a price given as a rational, the decimal number the
  catalog sent; the pricing code computes on the nearest binary64 number, as
  it does for the discount.
* React state is an explicit record `State`; a synchronous handler is a
  function from the state it closes over to the next state and the toast it
  shows; the asynchronous handler `handleBillFinalization` is a function from
  the state it closes over and the outcomes of the calls it awaits to the
  ordered trace of effects it performs.
-/

namespace Billing

/-! ## Numbers -/

/-- Integer-valued JavaScript number or `NaN` (`none`). -/
abbrev JSInt := Option Int

/-- Addition `a + b` on integer-or-NaN numbers. -/
def JSInt.add : JSInt → JSInt → JSInt
  | some a, some b => some (a + b)
  | _, _ => none

/-- Comparison `a <= b`; every comparison with `NaN` is false. -/
def JSInt.le : JSInt → JSInt → Bool
  | some a, some b => decide (a ≤ b)
  | _, _ => false

/-- Comparison `a > b`; every comparison with `NaN` is false. -/
def JSInt.gt : JSInt → JSInt → Bool
  | some a, some b => decide (b < a)
  | _, _ => false

/-! ## Binary64 numbers -/

/-- JavaScript number: `NaN`, plus or minus infinity, or a finite binary64
number given by its exact rational value. -/
inductive JSNum
  | nan
  | inf (negative : Bool)
  | fin (value : ℚ)
  deriving DecidableEq

/-- Power of two with an integer exponent. -/
def pow2 (e : Int) : ℚ :=
  if 0 ≤ e then ((2 ^ e.toNat : Nat) : ℚ) else 1 / ((2 ^ (-e).toNat : Nat) : ℚ)

/-- Number of binary digits of `n`, by halving at most `fuel` times. -/
def bitLen : Nat → Nat → Nat
  | 0, _ => 0
  | fuel + 1, n => if n = 0 then 0 else bitLen fuel (n / 2) + 1

/-- Number of binary digits of `n` (`0` for `0`). -/
def bitLength (n : Nat) : Nat := bitLen n n

/-- Binary exponent of a positive rational `x`: the `e` with
`2 ^ e ≤ x < 2 ^ (e + 1)`. -/
def binaryExponent (x : ℚ) : Int :=
  let e0 : Int := (bitLength x.num.natAbs : Int) - (bitLength x.den : Int)
  if x < pow2 e0 then e0 - 1 else e0

/-- Nearest integer to a non-negative rational, ties to the even one. -/
def roundHalfEven (x : ℚ) : Int :=
  let f := Rat.floor x
  let r := x - f
  if r < 1 / 2 then f else if 1 / 2 < r then f + 1 else if f % 2 = 0 then f else f + 1

/-- Rounding of an exact result to binary64, to nearest with ties to even: 53
significant bits, smallest spacing `2 ^ (-1074)`, infinity from `2 ^ 1024`. -/
def roundF64 (x : ℚ) : JSNum :=
  if x = 0 then JSNum.fin 0
  else
    let a := if x < 0 then -x else x
    let e := max (binaryExponent a) (-1022)
    let ulp := pow2 (e - 52)
    let v := (roundHalfEven (a / ulp) : ℚ) * ulp
    if pow2 1024 ≤ v then JSNum.inf (decide (x < 0))
    else JSNum.fin (if x < 0 then -v else v)

/-- The number the program holds for a decimal number of the catalog: the
nearest binary64 number (the number itself when it is one). -/
def JSNum.ofRat (q : ℚ) : JSNum := roundF64 q

/-- The quantity as a binary64 number. -/
def JSInt.toNum : JSInt → JSNum
  | some n => roundF64 (n : ℚ)
  | none => JSNum.nan

/-- Negation `-a`. -/
def JSNum.neg : JSNum → JSNum
  | JSNum.nan => JSNum.nan
  | JSNum.inf s => JSNum.inf (!s)
  | JSNum.fin a => JSNum.fin (-a)

/-- Addition `a + b`. -/
def JSNum.add : JSNum → JSNum → JSNum
  | JSNum.nan, _ => JSNum.nan
  | _, JSNum.nan => JSNum.nan
  | JSNum.inf s, JSNum.inf t => if s = t then JSNum.inf s else JSNum.nan
  | JSNum.inf s, JSNum.fin _ => JSNum.inf s
  | JSNum.fin _, JSNum.inf t => JSNum.inf t
  | JSNum.fin a, JSNum.fin b => roundF64 (a + b)

/-- Subtraction `a - b`. -/
def JSNum.sub (a b : JSNum) : JSNum := JSNum.add a (JSNum.neg b)

/-- Multiplication `a * b`. -/
def JSNum.mul : JSNum → JSNum → JSNum
  | JSNum.nan, _ => JSNum.nan
  | _, JSNum.nan => JSNum.nan
  | JSNum.inf s, JSNum.inf t => JSNum.inf (s != t)
  | JSNum.inf s, JSNum.fin b => if b = 0 then JSNum.nan else JSNum.inf (s != decide (b < 0))
  | JSNum.fin a, JSNum.inf t => if a = 0 then JSNum.nan else JSNum.inf (decide (a < 0) != t)
  | JSNum.fin a, JSNum.fin b => roundF64 (a * b)

/-- Division `a / b`; a zero divisor is taken as `+0` (the only divisor in
the source is the constant `100`). -/
def JSNum.div : JSNum → JSNum → JSNum
  | JSNum.nan, _ => JSNum.nan
  | _, JSNum.nan => JSNum.nan
  | JSNum.inf _, JSNum.inf _ => JSNum.nan
  | JSNum.inf s, JSNum.fin b => JSNum.inf (s != decide (b < 0))
  | JSNum.fin _, JSNum.inf _ => JSNum.fin 0
  | JSNum.fin a, JSNum.fin b =>
    if b = 0 then (if a = 0 then JSNum.nan else JSNum.inf (decide (a < 0)))
    else roundF64 (a / b)

/-! ## `parseInt` -/

/-- Code points of `WhiteSpace` and `LineTerminator`, which `parseInt` skips
at the start of its input. -/
def whiteSpaceCodes : List Nat :=
  [0x09, 0x0A, 0x0B, 0x0C, 0x0D, 0x20, 0xA0, 0x1680,
   0x2000, 0x2001, 0x2002, 0x2003, 0x2004, 0x2005, 0x2006, 0x2007, 0x2008,
   0x2009, 0x200A, 0x2028, 0x2029, 0x202F, 0x205F, 0x3000, 0xFEFF]

/-- Whether the character is skipped by `parseInt` as leading white space. -/
def isWhiteSpace (c : Char) : Bool := whiteSpaceCodes.contains c.toNat

/-- Value of a character as a digit of radix `r`, if it is one. -/
def radixDigit (r : Nat) (c : Char) : Option Nat :=
  let n := c.toNat
  let v : Option Nat :=
    if 48 ≤ n ∧ n ≤ 57 then some (n - 48)
    else if 97 ≤ n ∧ n ≤ 122 then some (n - 87)
    else if 65 ≤ n ∧ n ≤ 90 then some (n - 55)
    else none
  v.filter (fun d => decide (d < r))

/-- Longest prefix of radix-`r` digits, as digit values. -/
def takeDigits (r : Nat) : List Char → List Nat
  | [] => []
  | c :: cs =>
    match radixDigit r c with
    | some d => d :: takeDigits r cs
    | none => []

/-- Removal of one leading sign character. -/
def dropSign : List Char → List Char
  | '+' :: t => t
  | '-' :: t => t
  | s => s

/-- Radix selected by `parseInt` without a radix argument, and the input
after the `0x`/`0X` prefix is removed. -/
def splitRadix : List Char → Nat × List Char
  | '0' :: 'x' :: t => (16, t)
  | '0' :: 'X' :: t => (16, t)
  | s => (10, s)

/-- `parseInt(string)` with no radix argument: skip leading white space,
read an optional sign, an optional `0x` prefix and the longest run of digits;
`NaN` when there is no digit. -/
def parseInt (input : String) : JSInt :=
  let s := input.data.dropWhile isWhiteSpace
  let negative := s.head? == some '-'
  let rs := splitRadix (dropSign s)
  let z := takeDigits rs.1 rs.2
  if z.isEmpty then none
  else
    let mathInt : Int := (z.foldl (fun acc d => acc * rs.1 + d) 0 : Nat)
    some (if negative then -mathInt else mathInt)

/-! ## Data model -/

/-- Product of the catalog snapshot. -/
structure Product where
  _id : String
  name : String
  price : ℚ
  stock : Int
  deriving DecidableEq

/-- Customer of the catalog snapshot; `discountPercentage` may be missing. -/
structure Customer where
  _id : String
  name : String
  phone : String
  discountPercentage : Option ℚ
  deriving DecidableEq

/-- Row of the cart: `{ product, quantity }`. -/
structure CartItem where
  product : Product
  quantity : JSInt
  deriving DecidableEq

/-- The `useState` cells of the `Billing` component. The `quantity` cell holds
the text of the quantity field; its initial number `1` is the text `"1"`,
which is what `parseInt` converts it to. -/
structure State where
  products : List Product
  customers : List Customer
  selectedProductId : String
  productQuery : String
  selectedCustomerId : String
  customerQuery : String
  quantity : String
  cart : List CartItem
  discount : ℚ
  isProcessing : Bool
  showCustomerDropdown : Bool
  showProductDropdown : Bool
  deriving DecidableEq

/-- State of the component when it mounts. -/
def initialState : State :=
  { products := [], customers := [], selectedProductId := "", productQuery := "",
    selectedCustomerId := "", customerQuery := "", quantity := "1", cart := [],
    discount := 0, isProcessing := false, showCustomerDropdown := false,
    showProductDropdown := false }

/-! ## Notifications -/

/-- Severity of a toast. -/
inductive Level
  | warning | error | success | info
  deriving DecidableEq

/-- Text of a toast: a literal of the source, or one of its templates with the
interpolated values kept apart. -/
inductive Msg
  /-- Fixed text. -/
  | lit (text : String)
  /-- Template "Insufficient stock! Only (product.stock) items available. You
  already have (currentCartQty) in cart." -/
  | insufficientStock (available : Int) (inCart : JSInt)
  /-- Template "(product.name) added to bill". -/
  | addedToBill (name : String)
  /-- Template "(item.product.name) removed from bill". -/
  | removedFromBill (name : String)
  deriving DecidableEq

/-- Toast shown to the operator. -/
structure Toast where
  level : Level
  msg : Msg
  deriving DecidableEq

/-! ## Cart store -/

/-- Handler `addToBill` (lines 117-155). -/
def addToBill (s : State) : State × Toast :=
  if s.selectedProductId = "" then
    (s, ⟨Level.warning, Msg.lit "Please select a product"⟩)
  else
    let qty := parseInt s.quantity
    if JSInt.le qty (some 0) then
      (s, ⟨Level.warning, Msg.lit "Quantity must be at least 1"⟩)
    else
      match s.products.find? (fun p => p._id == s.selectedProductId) with
      | none => (s, ⟨Level.error, Msg.lit "Product not found"⟩)
      | some product =>
        let existingItem := s.cart.find? (fun item => item.product._id == s.selectedProductId)
        let currentCartQty : JSInt :=
          match existingItem with
          | some item => item.quantity
          | none => some 0
        let totalRequestedQty := JSInt.add currentCartQty qty
        if JSInt.gt totalRequestedQty (some product.stock) then
          (s, ⟨Level.error, Msg.insufficientStock product.stock currentCartQty⟩)
        else
          let cart :=
            match existingItem with
            | some _ =>
              s.cart.map (fun item =>
                if item.product._id == s.selectedProductId
                then { item with quantity := totalRequestedQty }
                else item)
            | none => s.cart ++ [{ product := product, quantity := qty }]
          ({ s with cart := cart, selectedProductId := "", productQuery := "",
                    quantity := "1" },
           ⟨Level.success, Msg.addedToBill product.name⟩)

/-- Handler `removeFromBill` (lines 157-161). -/
def removeFromBill (productId : String) (s : State) : State × Option Toast :=
  let item := s.cart.find? (fun i => i.product._id == productId)
  ({ s with cart := s.cart.filter (fun item => item.product._id != productId) },
   item.map (fun i => ⟨Level.info, Msg.removedFromBill i.product.name⟩))

/-! ## Pricing calculator -/

/-- Result `{ subtotal, discountAmount, total }` of `calculateTotal`. -/
structure Totals where
  subtotal : JSNum
  discountAmount : JSNum
  total : JSNum
  deriving DecidableEq

/-- Amount `item.product.price * item.quantity` of one row. -/
def lineAmount (item : CartItem) : JSNum :=
  JSNum.mul (JSNum.ofRat item.product.price) (JSInt.toNum item.quantity)

/-- Function `calculateTotal` (lines 163-171), on the cart and discount it
closes over. -/
def calculateTotal (cart : List CartItem) (discount : ℚ) : Totals :=
  let subtotal := cart.foldl (fun acc item => JSNum.add acc (lineAmount item)) (JSNum.fin 0)
  let discountAmount :=
    JSNum.div (JSNum.mul subtotal (JSNum.ofRat discount)) (JSNum.fin 100)
  let total := JSNum.sub subtotal discountAmount
  { subtotal := subtotal, discountAmount := discountAmount, total := total }

/-! ## Customer selection -/

/-- Handler `selectCustomer` (lines 93-104); `none` is the call with `null`.
The expression `customer.discountPercentage || 0` is `0` when the field is
missing or zero. -/
def selectCustomer (customer : Option Customer) (s : State) : State :=
  match customer with
  | some c =>
    { s with selectedCustomerId := c._id, customerQuery := c.name,
             discount := c.discountPercentage.getD 0,
             showCustomerDropdown := false }
  | none =>
    { s with selectedCustomerId := "", customerQuery := "", discount := 0,
             showCustomerDropdown := false }

/-- Handler `onChange` of the customer search field (lines 319-326), called
with the new text of the field. -/
def customerQueryChange (value : String) (s : State) : State :=
  let s1 := { s with customerQuery := value, showCustomerDropdown := true }
  if value = "" then { s1 with selectedCustomerId := "", discount := 0 } else s1

/-! ## Bill finaliser -/

/-- Entry `{ productId, quantity }` of the body of the update-stock request. -/
structure StockItem where
  productId : String
  quantity : JSInt
  deriving DecidableEq

/-- Observable steps of the finaliser, in the order they happen: state
setters, requests, renderer calls, log lines and toasts. -/
inductive Effect
  | setIsProcessing (b : Bool)
  | setCart (cart : List CartItem)
  | setSelectedCustomerId (id : String)
  | setCustomerQuery (q : String)
  | setDiscount (d : ℚ)
  /-- Request `POST /api/products/update-stock` with body `{ items }`. -/
  | postUpdateStock (items : List StockItem)
  /-- Call of `fetchProducts`, which issues `GET /api/products`. -/
  | fetchProducts
  /-- Call of `window.print`. -/
  | windowPrint
  /-- Entry into `generatePDF`. -/
  | generatePDF
  /-- Call of `doc.save`, which hands the document to the browser. -/
  | savePDF
  | consoleError (label : String)
  | toast (t : Toast)
  deriving DecidableEq

/-- State after one effect; only setters change the component state. -/
def applyEffect (s : State) : Effect → State
  | Effect.setIsProcessing b => { s with isProcessing := b }
  | Effect.setCart c => { s with cart := c }
  | Effect.setSelectedCustomerId i => { s with selectedCustomerId := i }
  | Effect.setCustomerQuery q => { s with customerQuery := q }
  | Effect.setDiscount d => { s with discount := d }
  | _ => s

/-- Outcome of the awaited update-stock request: fulfilled, or rejected with
the value of `error.response?.data?.error` when there is one. -/
inductive PostOutcome
  | ok
  | failed (serverError : Option String)
  deriving DecidableEq

/-- Outcomes of the calls the finaliser makes into its environment. -/
structure Outcomes where
  /-- Result of the update-stock request. -/
  post : PostOutcome
  /-- Whether `window.print` throws. -/
  printThrows : Bool
  /-- Whether building or saving the document throws inside `generatePDF`. -/
  pdfThrows : Bool
  deriving DecidableEq

/-- Function `generatePDF` (lines 175-243): its effects and its return value
(`none` is the toast handle of the empty-cart return). -/
def generatePDF (pdfThrows : Bool) (s : State) : List Effect × Option Bool :=
  if s.cart.length = 0 then
    ([Effect.generatePDF, Effect.toast ⟨Level.warning, Msg.lit "Cart is empty"⟩], none)
  else if pdfThrows then
    ([Effect.generatePDF, Effect.consoleError "PDF Generation Error:",
      Effect.toast ⟨Level.error, Msg.lit "Error generating PDF"⟩], some false)
  else
    ([Effect.generatePDF, Effect.savePDF], some true)

/-- Message of the `catch` block of the finaliser:
`error.response?.data?.error || "Failed to update stock. Bill not finalized."`. -/
def finalizeErrorMsg (serverError : Option String) : Msg :=
  match serverError with
  | some e => if e = "" then Msg.lit "Failed to update stock. Bill not finalized." else Msg.lit e
  | none => Msg.lit "Failed to update stock. Bill not finalized."

/-- Effects of the `catch` block followed by the `finally` block. -/
def catchFinally (serverError : Option String) : List Effect :=
  [Effect.consoleError "Error finalizing bill:",
   Effect.toast ⟨Level.error, finalizeErrorMsg serverError⟩,
   Effect.setIsProcessing false]

/-- Effects of steps 3 and 4 of the `try` block followed by the `finally`
block. -/
def resetAndRefresh (action : String) : List Effect :=
  [Effect.setCart [], Effect.setSelectedCustomerId "", Effect.setCustomerQuery "",
   Effect.setDiscount 0, Effect.fetchProducts,
   Effect.toast ⟨Level.success,
     Msg.lit (if action = "print" then "Bill printed and stock updated!"
              else "Bill downloaded and stock updated!")⟩,
   Effect.setIsProcessing false]

/-- Trace of `handleBillFinalization(action)` (lines 245-290) run on the
state it closes over, given the outcomes of its calls. -/
def finalizationTrace (action : String) (o : Outcomes) (s : State) : List Effect :=
  if s.cart.length = 0 then
    [Effect.toast ⟨Level.warning, Msg.lit "Cart is empty"⟩]
  else
    let items := s.cart.map (fun item =>
      ({ productId := item.product._id, quantity := item.quantity } : StockItem))
    [Effect.setIsProcessing true, Effect.postUpdateStock items] ++
    match o.post with
    | PostOutcome.failed serverError => catchFinally serverError
    | PostOutcome.ok =>
      if action = "print" then
        if o.printThrows then Effect.windowPrint :: catchFinally none
        else Effect.windowPrint :: resetAndRefresh action
      else if action = "download" then
        (generatePDF o.pdfThrows s).1 ++ resetAndRefresh action
      else resetAndRefresh action

/-- Handler `handleBillFinalization`: the state after its setters are applied
in order, and its trace. -/
def handleBillFinalization (action : String) (o : Outcomes) (s : State) :
    State × List Effect :=
  let trace := finalizationTrace action o s
  (trace.foldl applyEffect s, trace)

/-- Prop `disabled` of the "Print Bill" button (line 554). -/
def printDisabled (s : State) : Bool := s.isProcessing || s.cart.length == 0

/-- Prop `disabled` of the "Checkout & Download" button (line 563). -/
def downloadDisabled (s : State) : Bool := s.isProcessing || s.cart.length == 0

/-! ## Specification-side notions -/

/-- Sum of a list of quantities in JavaScript arithmetic (`NaN` propagates). -/
def JSInt.sum (xs : List JSInt) : JSInt := xs.foldr JSInt.add (some 0)

/-- Cart row with a numeric quantity. -/
def numericRow (r : Product × Int) : CartItem := { product := r.1, quantity := some r.2 }

/-- Exact sum over the rows of `price * quantity`. -/
def exactSubtotal (rows : List (Product × Int)) : ℚ :=
  (rows.map (fun r => r.1.price * (r.2 : ℚ))).sum

/-- The rational is a binary64 number: rounding leaves it as it is. -/
def Representable (q : ℚ) : Prop := roundF64 q = JSNum.fin q

instance (q : ℚ) : Decidable (Representable q) := by
  unfold Representable
  infer_instance

/-- No operation of the running sum of `calculateTotal` rounds, from the
accumulator `a` on: each price, each quantity, each row product and each new
value of the accumulator is a binary64 number. -/
def SumExact : ℚ → List (Product × Int) → Prop
  | _, [] => True
  | a, r :: rs =>
    Representable r.1.price ∧ Representable (r.2 : ℚ) ∧
    Representable (r.1.price * (r.2 : ℚ)) ∧
    Representable (a + r.1.price * (r.2 : ℚ)) ∧
    SumExact (a + r.1.price * (r.2 : ℚ)) rs

/-- No operation of `calculateTotal` rounds on these rows and this discount:
the running sum is exact, and the discount, `subtotal * discount`, its
hundredth and the final difference are binary64 numbers. -/
def NoRounding (rows : List (Product × Int)) (discount : ℚ) : Prop :=
  SumExact 0 rows ∧ Representable discount ∧
  Representable (exactSubtotal rows * discount) ∧
  Representable (exactSubtotal rows * discount / 100) ∧
  Representable (exactSubtotal rows - exactSubtotal rows * discount / 100)

/-- Quantity of the product already held in the cart, `0` if it has no row. -/
def heldQuantity (cart : List CartItem) (productId : String) : JSInt :=
  match cart.find? (fun item => item.product._id == productId) with
  | some item => item.quantity
  | none => some 0

/-- Product ids of the rows of a cart, in order. -/
def rowIds (cart : List CartItem) : List String := cart.map (fun item => item.product._id)

/-- Whether `addToBill` accepted the request: it ended with the success toast. -/
def accepted (r : State × Toast) : Bool := r.2.level == Level.success

/-- The cart `new` is the cart `old` with the quantity of exactly one row, a
row of product `productId`, replaced by its old quantity plus `q`: same
length, same order, every other row identical. -/
def MergesOneRow (old new : List CartItem) (productId : String) (q : JSInt) : Prop :=
  ∃ i row, old[i]? = some row ∧ row.product._id = productId ∧
    new = old.set i { row with quantity := JSInt.add row.quantity q }

/-- One request of the operator: select the product `productId`, type `text`
in the quantity field, press "Add to Bill". -/
def addCall (productId text : String) (s : State) : State × Toast :=
  addToBill { s with selectedProductId := productId, quantity := text }

/-- A sequence of requests for the same product, one per quantity text: the
final state and the parsed quantities of the accepted requests, in order. -/
def addCalls (productId : String) : List String → State → State × List JSInt
  | [], s => (s, [])
  | t :: ts, s =>
    let r := addCall productId t s
    let rest := addCalls productId ts r.1
    (rest.1, if accepted r then parseInt t :: rest.2 else rest.2)

/-- Carts reachable from the empty cart by `addToBill` and `removeFromBill`,
run on any state that holds the cart (any selection, quantity text and
catalog snapshot) and with any product id. -/
inductive ReachableCart : List CartItem → Prop
  | empty : ReachableCart []
  | add (s : State) : ReachableCart s.cart → ReachableCart (addToBill s).1.cart
  | remove (productId : String) (s : State) :
      ReachableCart s.cart → ReachableCart (removeFromBill productId s).1.cart

/-- Items sent to update-stock for a cart. -/
def stockItems (cart : List CartItem) : List StockItem :=
  cart.map (fun item => { productId := item.product._id, quantity := item.quantity })

/-- The requested action ran to its end: `window.print` did not throw, or
`generatePDF` built and saved the document. -/
def actionCompletes (action : String) (o : Outcomes) : Prop :=
  (action = "print" ∧ o.printThrows = false) ∨ (action = "download" ∧ o.pdfThrows = false)

/-- Whether the effect is a call of `setIsProcessing`. -/
def isProcessingSetter : Effect → Bool
  | Effect.setIsProcessing _ => true
  | _ => false

/-- State after the first `k` effects of a trace. -/
def stateAfter (k : Nat) (trace : List Effect) (s : State) : State :=
  (trace.take k).foldl applyEffect s

instance (action : String) (o : Outcomes) : Decidable (actionCompletes action o) := by
  unfold actionCompletes
  infer_instance

/-! ## Lemmas on the number model -/

theorem jsint_add_assoc (a b c : JSInt) :
    JSInt.add (JSInt.add a b) c = JSInt.add a (JSInt.add b c) := by
  cases a <;> cases b <;> cases c <;> simp [JSInt.add, add_assoc]

theorem jsint_add_zero (a : JSInt) : JSInt.add a (some 0) = a := by
  cases a <;> simp [JSInt.add]

theorem jsint_zero_add (a : JSInt) : JSInt.add (some 0) a = a := by
  cases a <;> simp [JSInt.add]

/-! ## Pricing calculator: C1 and C19 -/

/-- With fuel at least `n`, `bitLen` counts the binary digits of a positive
`n`: `2 ^ (k - 1) ≤ n < 2 ^ k` for the count `k`. -/
theorem bitLen_spec (fuel : Nat) :
    ∀ n : Nat, n ≤ fuel → 0 < n →
      1 ≤ bitLen fuel n ∧ 2 ^ (bitLen fuel n - 1) ≤ n ∧ n < 2 ^ bitLen fuel n := by
  induction fuel with
  | zero => intro n h0 hpos; omega
  | succ fuel ih =>
    intro n hle hpos
    have hn0 : n ≠ 0 := by omega
    simp only [bitLen, hn0, if_false]
    by_cases hhalf : n / 2 = 0
    · have h1 : n = 1 := by omega
      have hb : bitLen fuel (n / 2) = 0 := by
        rw [hhalf]
        cases fuel <;> simp [bitLen]
      rw [hb, h1]
      decide
    · have hle2 : n / 2 ≤ fuel := by omega
      obtain ⟨hb1, hlo, hhi⟩ := ih (n / 2) hle2 (by omega)
      refine ⟨by omega, ?_, ?_⟩
      · have hpow : 2 ^ (bitLen fuel (n / 2) + 1 - 1)
            = 2 * 2 ^ (bitLen fuel (n / 2) - 1) := by
          have : bitLen fuel (n / 2) + 1 - 1 = (bitLen fuel (n / 2) - 1) + 1 := by omega
          rw [this, pow_succ]
          ring
        rw [hpow]
        omega
      · rw [pow_succ]
        omega

/-- The bit length of a positive `n` is the `k` with `2 ^ (k - 1) ≤ n < 2 ^ k`:
the fuel of `bitLen` never runs out. -/
theorem bitLength_spec (n : Nat) (hpos : 0 < n) :
    1 ≤ bitLength n ∧ 2 ^ (bitLength n - 1) ≤ n ∧ n < 2 ^ bitLength n :=
  bitLen_spec n n (le_refl n) hpos

/-- Zero rounds to zero. -/
theorem roundF64_zero : roundF64 0 = JSNum.fin 0 := by
  simp [roundF64]

/-- Amount of a row whose price, quantity and product are binary64 numbers. -/
theorem lineAmount_numericRow (r : Product × Int) (hp : Representable r.1.price)
    (hq : Representable (r.2 : ℚ)) (hpq : Representable (r.1.price * (r.2 : ℚ))) :
    lineAmount (numericRow r) = JSNum.fin (r.1.price * (r.2 : ℚ)) := by
  unfold Representable at hp hq hpq
  simp only [lineAmount, numericRow, JSNum.ofRat, JSInt.toNum, hp, hq, JSNum.mul]
  exact hpq

/-- When no step of the running sum rounds, the fold of `reduce` started at
`a` ends at `a` plus the exact sum of the row amounts. -/
theorem foldl_lineAmount_exact (rows : List (Product × Int)) :
    ∀ a : ℚ, SumExact a rows →
      (rows.map numericRow).foldl (fun acc item => JSNum.add acc (lineAmount item))
          (JSNum.fin a)
        = JSNum.fin (a + exactSubtotal rows) := by
  induction rows with
  | nil =>
    intro a _
    simp [exactSubtotal]
  | cons r rs ih =>
    intro a h
    obtain ⟨hp, hq, hpq, hacc, hrest⟩ := h
    have hstep : JSNum.add (JSNum.fin a) (JSNum.fin (r.1.price * (r.2 : ℚ)))
        = JSNum.fin (a + r.1.price * (r.2 : ℚ)) := hacc
    simp only [List.map_cons, List.foldl_cons, lineAmount_numericRow r hp hq hpq, hstep,
      ih _ hrest]
    congr 1
    simp only [exactSubtotal, List.map_cons, List.sum_cons]
    ring

/-- When no operation rounds, `calculateTotal` returns the exact sum, the
exact discount amount and the exact difference. -/
theorem calculateTotal_noRounding (rows : List (Product × Int)) (discount : ℚ)
    (h : NoRounding rows discount) :
    calculateTotal (rows.map numericRow) discount
      = { subtotal := JSNum.fin (exactSubtotal rows),
          discountAmount := JSNum.fin (exactSubtotal rows * discount / 100),
          total := JSNum.fin (exactSubtotal rows - exactSubtotal rows * discount / 100) } := by
  obtain ⟨hsum, hd, hmul, hdiv, hsub⟩ := h
  have hfold := foldl_lineAmount_exact rows 0 hsum
  rw [zero_add] at hfold
  unfold Representable at hd hmul hdiv hsub
  have h100 : (100 : ℚ) ≠ 0 := by norm_num
  have hneg : exactSubtotal rows + -(exactSubtotal rows * discount / 100)
      = exactSubtotal rows - exactSubtotal rows * discount / 100 := by ring
  have e1 : JSNum.mul (JSNum.fin (exactSubtotal rows)) (JSNum.ofRat discount)
      = JSNum.fin (exactSubtotal rows * discount) := by
    simp only [JSNum.ofRat, hd, JSNum.mul]
    exact hmul
  have e2 : JSNum.div (JSNum.fin (exactSubtotal rows * discount)) (JSNum.fin 100)
      = JSNum.fin (exactSubtotal rows * discount / 100) := by
    simp only [JSNum.div, h100, if_false]
    exact hdiv
  have e3 : JSNum.sub (JSNum.fin (exactSubtotal rows))
        (JSNum.fin (exactSubtotal rows * discount / 100))
      = JSNum.fin (exactSubtotal rows - exactSubtotal rows * discount / 100) := by
    simp only [JSNum.sub, JSNum.neg, JSNum.add, hneg]
    exact hsub
  simp only [calculateTotal, hfold, e1, e2, e3]

/-- The rows (100, 2) and (50, 1) with discount 10 are computed without
rounding. -/
theorem noRounding_example :
    NoRounding
      [({ _id := "a", name := "A", price := 100, stock := 9 }, 2),
       ({ _id := "b", name := "B", price := 50, stock := 9 }, 1)] 10 :=
  ⟨⟨by decide!, by decide!, by decide!, by decide!,
    by decide!, by decide!, by decide!, by decide!, trivial⟩,
   by decide!, by decide!, by decide!, by decide!⟩

/-- C1 (counterexample): for one row of price 0.1 and quantity 3 with
discount 0, the price is held as the binary64 number nearest to 0.1 and the
subtotal is 0.30000000000000004 (1351079888211149 / 2 ^ 52), which is neither
3/10 nor three times the price held. -/
theorem calculateTotal_rounds :
    calculateTotal
        [{ product := { _id := "a", name := "A", price := 1 / 10, stock := 9 },
           quantity := some 3 }] 0
      = { subtotal := JSNum.fin (1351079888211149 / 4503599627370496),
          discountAmount := JSNum.fin 0,
          total := JSNum.fin (1351079888211149 / 4503599627370496) } ∧
    JSNum.ofRat (1 / 10) = JSNum.fin (3602879701896397 / 36028797018963968) ∧
    (1351079888211149 / 4503599627370496 : ℚ) ≠ 3 / 10 ∧
    (1351079888211149 / 4503599627370496 : ℚ) ≠ 3602879701896397 / 36028797018963968 * 3 := by
  refine ⟨by decide!, by decide!, by norm_num, by norm_num⟩

/-- C1 (amended): for every cart with numeric quantities and every discount
on which no operation of `calculateTotal` rounds, it returns the sum over the
rows of `price * quantity` as subtotal, `subtotal * discount / 100` as
discount amount and `subtotal - discountAmount` as total, exactly. -/
theorem calculateTotal_exact_of_no_rounding (rows : List (Product × Int)) (discount : ℚ)
    (h : NoRounding rows discount) :
    calculateTotal (rows.map numericRow) discount
      = { subtotal := JSNum.fin ((rows.map (fun r => r.1.price * (r.2 : ℚ))).sum),
          discountAmount :=
            JSNum.fin ((rows.map (fun r => r.1.price * (r.2 : ℚ))).sum * discount / 100),
          total :=
            JSNum.fin ((rows.map (fun r => r.1.price * (r.2 : ℚ))).sum
              - (rows.map (fun r => r.1.price * (r.2 : ℚ))).sum * discount / 100) } :=
  calculateTotal_noRounding rows discount h

/-- C1 (witness): rows (100, 2) and (50, 1) with discount 10 give 250, 25 and
225. -/
theorem calculateTotal_exact_of_no_rounding_witness :
    calculateTotal
        [{ product := { _id := "a", name := "A", price := 100, stock := 9 },
           quantity := some 2 },
         { product := { _id := "b", name := "B", price := 50, stock := 9 },
           quantity := some 1 }] 10
      = { subtotal := JSNum.fin 250, discountAmount := JSNum.fin 25,
          total := JSNum.fin 225 } := by
  have h := calculateTotal_exact_of_no_rounding
    [({ _id := "a", name := "A", price := 100, stock := 9 }, 2),
     ({ _id := "b", name := "B", price := 50, stock := 9 }, 1)] 10 noRounding_example
  simp only [List.map_cons, List.map_nil, numericRow, List.sum_cons, List.sum_nil] at h
  rw [h]
  norm_num

/-- C19 (counterexample): for one row of price 4.35 and quantity 3 with
discount 100, the subtotal is 13.049999999999999, the discount amount is
13.05, greater than the subtotal, and the total is `-(2 ^ (-49))`, negative. -/
theorem calculateTotal_negative_total :
    calculateTotal
        [{ product := { _id := "a", name := "A", price := 87 / 20, stock := 9 },
           quantity := some 3 }] 100
      = { subtotal := JSNum.fin (7346496892148121 / 562949953421312),
          discountAmount := JSNum.fin (3673248446074061 / 281474976710656),
          total := JSNum.fin (-1 / 562949953421312) } ∧
    (7346496892148121 / 562949953421312 : ℚ) < 3673248446074061 / 281474976710656 ∧
    (-1 / 562949953421312 : ℚ) < 0 := by
  refine ⟨by decide!, by norm_num, by norm_num⟩

/-- C19 (amended): for a cart whose rows have non-negative prices and
quantities and a discount between 0 and 100, when no operation of
`calculateTotal` rounds, its results are numbers with
`0 ≤ discountAmount ≤ subtotal` and `0 ≤ total ≤ subtotal`. -/
theorem calculateTotal_bounds_of_no_rounding (rows : List (Product × Int)) (discount : ℚ)
    (hnr : NoRounding rows discount)
    (hrows : ∀ r ∈ rows, 0 ≤ r.1.price ∧ 0 ≤ r.2)
    (hd0 : 0 ≤ discount) (hd1 : discount ≤ 100) :
    ∃ sub da t : ℚ,
      calculateTotal (rows.map numericRow) discount
        = { subtotal := JSNum.fin sub, discountAmount := JSNum.fin da,
            total := JSNum.fin t } ∧
      0 ≤ da ∧ da ≤ sub ∧ 0 ≤ t ∧ t ≤ sub := by
  have hpos : 0 ≤ exactSubtotal rows := by
    unfold exactSubtotal
    apply List.sum_nonneg
    intro x hx
    obtain ⟨r, hr, rfl⟩ := List.mem_map.mp hx
    obtain ⟨hp, hq⟩ := hrows r hr
    have hq2 : (0 : ℚ) ≤ (r.2 : ℚ) := by exact_mod_cast hq
    positivity
  have hda0 : 0 ≤ exactSubtotal rows * discount / 100 := by positivity
  have hda1 : exactSubtotal rows * discount / 100 ≤ exactSubtotal rows := by
    have : exactSubtotal rows * discount ≤ exactSubtotal rows * 100 :=
      mul_le_mul_of_nonneg_left hd1 hpos
    linarith
  exact ⟨_, _, _, calculateTotal_noRounding rows discount hnr, hda0, hda1,
    by linarith, by linarith⟩

/-- C19 (witness): rows (100, 2) and (50, 1) with discount 10. -/
theorem calculateTotal_bounds_of_no_rounding_witness :
    ∃ sub da t : ℚ,
      calculateTotal
        [{ product := { _id := "a", name := "A", price := 100, stock := 9 },
           quantity := some 2 },
         { product := { _id := "b", name := "B", price := 50, stock := 9 },
           quantity := some 1 }] 10
        = { subtotal := JSNum.fin sub, discountAmount := JSNum.fin da,
            total := JSNum.fin t } ∧
      0 ≤ da ∧ da ≤ sub ∧ 0 ≤ t ∧ t ≤ sub :=
  calculateTotal_bounds_of_no_rounding
    [({ _id := "a", name := "A", price := 100, stock := 9 }, 2),
     ({ _id := "b", name := "B", price := 50, stock := 9 }, 1)] 10 noRounding_example
    (by
      intro r hr
      simp only [List.mem_cons, List.mem_singleton, List.not_mem_nil, or_false] at hr
      rcases hr with h | h
      · rw [h]; exact ⟨by norm_num, by norm_num⟩
      · rw [h]; exact ⟨by norm_num, by norm_num⟩)
    (by norm_num) (by norm_num)

/-! ## Cart store: structure of `addToBill` -/

/-- Cart written by an accepted `addToBill`: the merge of the requested
quantity into the rows of the selected product, or the appended row. -/
theorem addToBill_cases (s : State) :
    ((addToBill s).1 = s ∧ accepted (addToBill s) = false) ∨
    (∃ p, s.selectedProductId ≠ "" ∧
      JSInt.le (parseInt s.quantity) (some 0) = false ∧
      s.products.find? (fun p => p._id == s.selectedProductId) = some p ∧
      JSInt.gt (JSInt.add (heldQuantity s.cart s.selectedProductId) (parseInt s.quantity))
        (some p.stock) = false ∧
      (addToBill s).2 = ⟨Level.success, Msg.addedToBill p.name⟩ ∧
      (addToBill s).1.cart =
        (match s.cart.find? (fun item => item.product._id == s.selectedProductId) with
         | some _ =>
           s.cart.map (fun item =>
             if item.product._id == s.selectedProductId
             then { item with quantity :=
                      JSInt.add (heldQuantity s.cart s.selectedProductId) (parseInt s.quantity) }
             else item)
         | none => s.cart ++ [{ product := p, quantity := parseInt s.quantity }])) := by
  unfold addToBill
  by_cases hsel : s.selectedProductId = ""
  · left; simp [hsel, accepted]
  · by_cases hq : JSInt.le (parseInt s.quantity) (some 0) = true
    · left; simp [hsel, hq, accepted]
    · cases hp : s.products.find? (fun p => p._id == s.selectedProductId) with
      | none => left; simp [hsel, hq, accepted]
      | some p =>
        by_cases hgt : JSInt.gt
            (JSInt.add (heldQuantity s.cart s.selectedProductId) (parseInt s.quantity))
            (some p.stock) = true
        · left
          simp only [heldQuantity] at hgt
          simp [hsel, hq, hgt, accepted]
        · right
          refine ⟨p, hsel, by simpa using hq, rfl, by simpa using hgt, ?_, ?_⟩
          · simp only [heldQuantity] at hgt
            simp [hsel, hq, hgt]
          · simp only [heldQuantity] at hgt ⊢
            simp only [hsel, hq, hgt, if_false, Bool.false_eq_true]

/-! ## C2: the stock check does not cover a quantity that is not a number -/

/-- C2 (failing input): with the quantity field empty, `parseInt` gives `NaN`,
both guards of `addToBill` are false, and a row whose quantity is `NaN` is
appended; that quantity is not less than or equal to the stock 5 of the
product in the snapshot. -/
theorem addToBill_empty_quantity_oversell :
    (addToBill { initialState with
        products := [{ _id := "p1", name := "Pen", price := 10, stock := 5 }],
        selectedProductId := "p1", quantity := "" }).1.cart
      = [{ product := { _id := "p1", name := "Pen", price := 10, stock := 5 },
           quantity := none }] ∧
    (addToBill { initialState with
        products := [{ _id := "p1", name := "Pen", price := 10, stock := 5 }],
        selectedProductId := "p1", quantity := "" }).2
      = ⟨Level.success, Msg.addedToBill "Pen"⟩ ∧
    JSInt.le (none : JSInt) (some 5) = false := by
  decide

/-- When the quantity field parses to a number `q` and the held quantity is
a number `h`, an accepted request stays within the stock of the product the
snapshot resolves the selection to, and every row of that product holds
`h + q` afterwards. -/
theorem addToBill_numeric_within_stock (s : State) (q h : Int)
    (hq : parseInt s.quantity = some q)
    (hh : heldQuantity s.cart s.selectedProductId = some h)
    (hacc : accepted (addToBill s) = true) :
    ∃ p, s.products.find? (fun x => x._id == s.selectedProductId) = some p ∧
      h + q ≤ p.stock ∧
      ∀ r ∈ (addToBill s).1.cart, r.product._id = s.selectedProductId →
        r.quantity = some (h + q) := by
  rcases addToBill_cases s with ⟨-, hrej⟩ | ⟨p, -, -, hp, hgt, -, hcart⟩
  · rw [hacc] at hrej; cases hrej
  · rw [hq, hh] at hgt
    rw [hq, hh] at hcart
    have hle : h + q ≤ p.stock := by
      simpa [JSInt.gt, JSInt.add] using hgt
    refine ⟨p, hp, hle, ?_⟩
    intro r hr hid
    rw [hcart] at hr
    cases hf : s.cart.find? (fun item => item.product._id == s.selectedProductId) with
    | some found =>
      rw [hf] at hr
      obtain ⟨r0, -, hr0⟩ := List.mem_map.mp hr
      by_cases hb : (r0.product._id == s.selectedProductId) = true
      · simp only [hb, if_true] at hr0
        rw [← hr0]
        rfl
      · simp only [hb, Bool.false_eq_true, if_false] at hr0
        rw [hr0] at hb
        exact absurd (by simpa using hid) hb
    | none =>
      rw [hf] at hr
      have h0 : h = 0 := by
        simp only [heldQuantity, hf] at hh
        exact (Option.some.inj hh).symm
      rcases List.mem_append.mp hr with hin | hin
      · rw [List.find?_eq_none] at hf
        exact absurd (by simpa using hid) (hf r hin)
      · rw [List.mem_singleton] at hin
        rw [hin, h0, zero_add]

/-! ## C3: rejection for insufficient stock -/

/-- C3: when a product is selected that the snapshot resolves to `p`, the
quantity field parses to `q ≥ 1` and the quantity already held plus `q` is
greater than `p.stock`, `addToBill` changes nothing and its error carries
`p.stock` as the available figure and the held quantity as the figure already
in cart. -/
theorem addToBill_insufficient_stock (s : State) (p : Product) (q : Int)
    (hsel : s.selectedProductId ≠ "")
    (hfind : s.products.find? (fun x => x._id == s.selectedProductId) = some p)
    (hq : parseInt s.quantity = some q) (hq1 : 1 ≤ q)
    (hover : JSInt.gt (JSInt.add (heldQuantity s.cart s.selectedProductId) (some q))
      (some p.stock) = true) :
    (addToBill s).1 = s ∧
    (addToBill s).2 = ⟨Level.error,
      Msg.insufficientStock p.stock (heldQuantity s.cart s.selectedProductId)⟩ := by
  have hle : JSInt.le (some q) (some 0) = false := by
    simp [JSInt.le]; omega
  simp only [heldQuantity] at hover
  unfold addToBill
  simp [hsel, hq, hle, hfind, hover, heldQuantity]

/-- C3 (witness): stock 5, the cart holds 4, adding 2 is rejected with the
figures 5 and 4 and the cart still holds 4. -/
theorem addToBill_insufficient_stock_witness :
    (addToBill { initialState with
        products := [{ _id := "p1", name := "Pen", price := 10, stock := 5 }],
        cart := [{ product := { _id := "p1", name := "Pen", price := 10, stock := 5 },
                   quantity := some 4 }],
        selectedProductId := "p1", quantity := "2" }).1.cart
      = [{ product := { _id := "p1", name := "Pen", price := 10, stock := 5 },
           quantity := some 4 }] ∧
    (addToBill { initialState with
        products := [{ _id := "p1", name := "Pen", price := 10, stock := 5 }],
        cart := [{ product := { _id := "p1", name := "Pen", price := 10, stock := 5 },
                   quantity := some 4 }],
        selectedProductId := "p1", quantity := "2" }).2
      = ⟨Level.error, Msg.insufficientStock 5 (some 4)⟩ := by
  have h := addToBill_insufficient_stock
    { initialState with
        products := [{ _id := "p1", name := "Pen", price := 10, stock := 5 }],
        cart := [{ product := { _id := "p1", name := "Pen", price := 10, stock := 5 },
                   quantity := some 4 }],
        selectedProductId := "p1", quantity := "2" }
    { _id := "p1", name := "Pen", price := 10, stock := 5 } 2
    (by decide) (by decide) (by decide) (by decide) (by decide)
  exact ⟨by rw [h.1], h.2⟩

/-! ## Shape of the cart after an accepted request -/

/-- A map that rewrites only rows of a product absent from the cart changes
nothing. -/
theorem map_absent (cart : List CartItem) (id : String) (g : CartItem → CartItem)
    (h : ∀ r ∈ cart, r.product._id ≠ id) :
    cart.map (fun item => if item.product._id == id then g item else item) = cart := by
  induction cart with
  | nil => rfl
  | cons r rs ih =>
    have hr : r.product._id ≠ id := h r (List.mem_cons_self _ _)
    have hrs : ∀ x ∈ rs, x.product._id ≠ id := fun x hx => h x (List.mem_cons_of_mem _ hx)
    have hb : (r.product._id == id) = false := by simpa using hr
    simp only [List.map_cons, hb, ih hrs, Bool.false_eq_true, if_false]

/-- No row of the product means the lookup of `addToBill` finds nothing. -/
theorem find_none_of_absent (cart : List CartItem) (id : String)
    (h : ∀ r ∈ cart, r.product._id ≠ id) :
    cart.find? (fun item => item.product._id == id) = none := by
  simp only [List.find?_eq_none]
  intro x hx
  simpa using h x hx

/-- In a cart with one row per product, the map of `addToBill` rewrites
exactly the row its lookup finds. -/
theorem map_eq_set_of_nodup (cart : List CartItem) (id : String) (g : CartItem → CartItem)
    (hnd : (rowIds cart).Nodup) (hex : ∃ r ∈ cart, r.product._id = id) :
    ∃ i row, cart[i]? = some row ∧ row.product._id = id ∧
      cart.find? (fun item => item.product._id == id) = some row ∧
      cart.map (fun item => if item.product._id == id then g item else item)
        = cart.set i (g row) := by
  induction cart with
  | nil => obtain ⟨r, hr, _⟩ := hex; cases hr
  | cons r rs ih =>
    simp only [rowIds, List.map_cons, List.nodup_cons, List.mem_map, not_exists, not_and] at hnd
    by_cases hr : r.product._id = id
    · have hb : (r.product._id == id) = true := by simpa using hr
      refine ⟨0, r, by simp, hr, by simp [hr], ?_⟩
      have habs : ∀ x ∈ rs, x.product._id ≠ id := by
        intro x hx hxe
        exact hnd.1 x hx (hxe.trans hr.symm)
      simp only [List.map_cons, hb, if_true, map_absent rs id g habs, List.set_cons_zero]
    · have hex2 : ∃ x ∈ rs, x.product._id = id := by
        obtain ⟨x, hx, hxe⟩ := hex
        rcases List.mem_cons.mp hx with h | h
        · exact absurd (h ▸ hxe) hr
        · exact ⟨x, h, hxe⟩
      obtain ⟨i, row, hi, hrow, hf, hm⟩ := ih hnd.2 hex2
      have hb : (r.product._id == id) = false := by simpa using hr
      refine ⟨i + 1, row, by simpa using hi, hrow, by simp [hr, hf], ?_⟩
      simp only [List.map_cons, hb, hm, Bool.false_eq_true, if_false, List.set_cons_succ]

/-- On a cart with at most one row per product id, an accepted request for the
product `p` the snapshot resolves the selection to, with parsed quantity `q`:
if the cart has a row of that product, the result is the cart with exactly
that row's quantity replaced by its old quantity plus `q`; otherwise the
result is the cart with the one row `(p, q)` appended. -/
theorem addToBill_accept_shape_of_nodup (s : State) (p : Product)
    (hfind : s.products.find? (fun x => x._id == s.selectedProductId) = some p)
    (hacc : accepted (addToBill s) = true)
    (hnd : (rowIds s.cart).Nodup) :
    ((∃ r ∈ s.cart, r.product._id = s.selectedProductId) →
      MergesOneRow s.cart (addToBill s).1.cart s.selectedProductId (parseInt s.quantity)) ∧
    ((∀ r ∈ s.cart, r.product._id ≠ s.selectedProductId) →
      (addToBill s).1.cart
        = s.cart ++ [{ product := p, quantity := parseInt s.quantity }]) := by
  rcases addToBill_cases s with ⟨-, hrej⟩ | ⟨p', -, -, hp', -, -, hcart⟩
  · rw [hacc] at hrej; cases hrej
  · have hpp : p' = p := by rw [hfind] at hp'; exact (Option.some.inj hp').symm
    subst hpp
    constructor
    · intro hex
      obtain ⟨i, row, hi, hrow, hf, hm⟩ := map_eq_set_of_nodup s.cart s.selectedProductId
        (fun item => { item with
          quantity := (JSInt.add (heldQuantity s.cart s.selectedProductId)
            (parseInt s.quantity)) }) hnd hex
      have hh : heldQuantity s.cart s.selectedProductId = row.quantity := by
        simp only [heldQuantity, hf]
      rw [hh] at hm hcart
      refine ⟨i, row, hi, hrow, ?_⟩
      rw [hcart, hf]
      exact hm
    · intro habs
      rw [hcart, find_none_of_absent s.cart s.selectedProductId habs]

/-! ## C5: repeated requests for one product -/

/-- The product found by the lookup of `addToBill` has the selected id. -/
theorem find_product_id (products : List Product) (id : String) (p : Product)
    (h : products.find? (fun x => x._id == id) = some p) : p._id = id := by
  have := List.find?_some h
  simpa using this

/-- On a cart that is one row of the selected product, `addToBill` either
rejects and keeps the cart or accepts and adds the parsed quantity to the row. -/
theorem addToBill_single (s : State) (row : CartItem) (hc : s.cart = [row])
    (hid : row.product._id = s.selectedProductId) :
    ((addToBill s).1.cart = [row] ∧ accepted (addToBill s) = false) ∨
    ((addToBill s).1.cart
        = [{ row with quantity := JSInt.add row.quantity (parseInt s.quantity) }] ∧
      accepted (addToBill s) = true) := by
  have hb : (row.product._id == s.selectedProductId) = true := by simpa using hid
  rcases addToBill_cases s with ⟨hsame, hrej⟩ | ⟨p, -, -, -, -, htoast, hcart⟩
  · left; exact ⟨by rw [hsame, hc], hrej⟩
  · right
    refine ⟨?_, by simp [accepted, htoast]⟩
    rw [hcart]
    simp only [hc, heldQuantity, List.find?_cons, hb, List.map_cons, List.map_nil, if_true]

/-- On an empty cart, `addToBill` either rejects and keeps the cart empty or
accepts and makes the cart one row of the selected product with the parsed
quantity. -/
theorem addToBill_empty (s : State) (hc : s.cart = []) :
    ((addToBill s).1.cart = [] ∧ accepted (addToBill s) = false) ∨
    (∃ p, p._id = s.selectedProductId ∧
      (addToBill s).1.cart = [{ product := p, quantity := parseInt s.quantity }] ∧
      accepted (addToBill s) = true) := by
  rcases addToBill_cases s with ⟨hsame, hrej⟩ | ⟨p, -, -, hp, -, htoast, hcart⟩
  · left; exact ⟨by rw [hsame, hc], hrej⟩
  · right
    refine ⟨p, find_product_id _ _ _ hp, ?_, by simp [accepted, htoast]⟩
    rw [hcart]
    simp only [hc, List.find?_nil, List.nil_append]

/-- From a cart that is one row of the product, a sequence of requests for it
leaves one row of the product, holding the old quantity plus the accepted
quantities. -/
theorem addCalls_single (productId : String) (texts : List String) :
    ∀ (s : State) (row : CartItem), s.cart = [row] → row.product._id = productId →
      ∃ row2, (addCalls productId texts s).1.cart = [row2] ∧
        row2.product._id = productId ∧
        row2.quantity = JSInt.add row.quantity (JSInt.sum (addCalls productId texts s).2) := by
  induction texts with
  | nil =>
    intro s row hc hid
    exact ⟨row, hc, hid, by simp [addCalls, JSInt.sum, jsint_add_zero]⟩
  | cons t ts ih =>
    intro s row hc hid
    have hstep : ((addCall productId t s).1.cart = [row] ∧
          accepted (addCall productId t s) = false) ∨
        ((addCall productId t s).1.cart
            = [{ row with quantity := JSInt.add row.quantity (parseInt t) }] ∧
          accepted (addCall productId t s) = true) :=
      addToBill_single { s with selectedProductId := productId, quantity := t } row hc hid
    rcases hstep with ⟨hc2, hrej⟩ | ⟨hc2, hacc⟩
    · obtain ⟨row2, h1, h2, h3⟩ := ih _ row hc2 hid
      refine ⟨row2, by simpa only [addCalls] using h1, h2, ?_⟩
      simp only [addCalls, hrej, Bool.false_eq_true, if_false]
      exact h3
    · obtain ⟨row2, h1, h2, h3⟩ := ih _ _ hc2 hid
      refine ⟨row2, by simpa only [addCalls] using h1, h2, ?_⟩
      simp only [addCalls, hacc, if_true]
      rw [h3, jsint_add_assoc]
      rfl

/-- From any state with an empty cart, after any sequence of `addToBill`
requests for one product id of which at least one is accepted, the cart has
exactly one row, of that product, and its quantity is the sum of the parsed
quantities of the accepted requests in the arithmetic of the program, where
a `NaN` makes the sum `NaN`. -/
theorem addCalls_one_row_sum (productId : String) (texts : List String) (s : State)
    (hempty : s.cart = []) (hacc : (addCalls productId texts s).2 ≠ []) :
    ∃ row, (addCalls productId texts s).1.cart = [row] ∧
      row.product._id = productId ∧
      row.quantity = JSInt.sum (addCalls productId texts s).2 := by
  induction texts generalizing s with
  | nil => simp [addCalls] at hacc
  | cons t ts ih =>
    have hstep : ((addCall productId t s).1.cart = [] ∧
          accepted (addCall productId t s) = false) ∨
        (∃ p, p._id = productId ∧
          (addCall productId t s).1.cart = [{ product := p, quantity := parseInt t }] ∧
          accepted (addCall productId t s) = true) :=
      addToBill_empty { s with selectedProductId := productId, quantity := t } hempty
    rcases hstep with ⟨hc2, hrej⟩ | ⟨p, hp, hc2, hacc2⟩
    · simp only [addCalls, hrej, Bool.false_eq_true, if_false] at hacc ⊢
      exact ih _ hc2 hacc
    · obtain ⟨row2, h1, h2, h3⟩ := addCalls_single productId ts _ _ hc2 hp
      refine ⟨row2, by simpa only [addCalls] using h1, h2, ?_⟩
      simp only [addCalls, hacc2, if_true]
      rw [h3]
      rfl

/-- Stock 5 and the requests 2, 9, 3: the second is rejected and the single row
holds 2 + 3. -/
theorem addCalls_one_row_sum_example :
    (addCalls "p1" ["2", "9", "3"] { initialState with
        products := [{ _id := "p1", name := "Pen", price := 10, stock := 5 }] }).2
      = [some 2, some 3] ∧
    ∃ row, (addCalls "p1" ["2", "9", "3"] { initialState with
        products := [{ _id := "p1", name := "Pen", price := 10, stock := 5 }] }).1.cart
        = [row] ∧
      row.product._id = "p1" ∧
      row.quantity = JSInt.sum (addCalls "p1" ["2", "9", "3"] { initialState with
        products := [{ _id := "p1", name := "Pen", price := 10, stock := 5 }] }).2 :=
  ⟨by decide,
   addCalls_one_row_sum "p1" ["2", "9", "3"]
    { initialState with
        products := [{ _id := "p1", name := "Pen", price := 10, stock := 5 }] }
    rfl (by decide)⟩

/-- C5 (failing input): from the empty cart with stock 5, the requests with
the texts "2" and "" for product `p1` are both accepted; the second one has
the quantity `NaN` and overwrites the held 2, so the single row holds `NaN`
and not the 2 that was validly requested. -/
theorem addCalls_nan_overwrites :
    (addCalls "p1" ["2"] { initialState with
        products := [{ _id := "p1", name := "Pen", price := 10, stock := 5 }] }).1.cart
      = [{ product := { _id := "p1", name := "Pen", price := 10, stock := 5 },
           quantity := some 2 }] ∧
    (addCalls "p1" ["2", ""] { initialState with
        products := [{ _id := "p1", name := "Pen", price := 10, stock := 5 }] }).2
      = [some 2, none] ∧
    (addCalls "p1" ["2", ""] { initialState with
        products := [{ _id := "p1", name := "Pen", price := 10, stock := 5 }] }).1.cart
      = [{ product := { _id := "p1", name := "Pen", price := 10, stock := 5 },
           quantity := none }] := by
  decide

/-- The quantities recorded for the accepted requests are parses of the texts. -/
theorem addCalls_accepted_parsed (productId : String) (texts : List String) :
    ∀ s : State, ∀ q ∈ (addCalls productId texts s).2, ∃ t ∈ texts, q = parseInt t := by
  induction texts with
  | nil => intro s q hq; simp [addCalls] at hq
  | cons t ts ih =>
    intro s q hq
    simp only [addCalls] at hq
    by_cases hacc : accepted (addCall productId t s) = true
    · simp only [hacc, if_true, List.mem_cons] at hq
      rcases hq with h | h
      · exact ⟨t, List.mem_cons_self _ _, h⟩
      · obtain ⟨u, hu, hqu⟩ := ih _ q h
        exact ⟨u, List.mem_cons_of_mem _ hu, hqu⟩
    · simp only [hacc, Bool.false_eq_true, if_false] at hq
      obtain ⟨u, hu, hqu⟩ := ih _ q hq
      exact ⟨u, List.mem_cons_of_mem _ hu, hqu⟩

/-- The sum of quantities that are all numbers is a number. -/
theorem jsint_sum_numeric (qs : List JSInt) (h : ∀ q ∈ qs, ∃ n : Int, q = some n) :
    ∃ n : Int, JSInt.sum qs = some n := by
  induction qs with
  | nil => exact ⟨0, rfl⟩
  | cons q qs ih =>
    obtain ⟨n, hn⟩ := h q (List.mem_cons_self _ _)
    obtain ⟨m, hm⟩ := ih (fun x hx => h x (List.mem_cons_of_mem _ hx))
    refine ⟨n + m, ?_⟩
    simp only [JSInt.sum, List.foldr_cons] at hm ⊢
    rw [hm, hn]
    rfl

/-- When every text of the sequence parses to a number, the single row holds
a number, the sum of the accepted quantities. -/
theorem addCalls_numeric_row_sum (productId : String) (texts : List String) (s : State)
    (hnum : ∀ t ∈ texts, ∃ n : Int, parseInt t = some n)
    (hempty : s.cart = []) (hacc : (addCalls productId texts s).2 ≠ []) :
    ∃ row, ∃ n : Int, (addCalls productId texts s).1.cart = [row] ∧
      row.product._id = productId ∧ row.quantity = some n ∧
      JSInt.sum (addCalls productId texts s).2 = some n := by
  obtain ⟨row, hrow, hid, hq⟩ := addCalls_one_row_sum productId texts s hempty hacc
  have hall : ∀ q ∈ (addCalls productId texts s).2, ∃ n : Int, q = some n := by
    intro q hqm
    obtain ⟨t, ht, hqt⟩ := addCalls_accepted_parsed productId texts s q hqm
    obtain ⟨n, hn⟩ := hnum t ht
    exact ⟨n, hqt.trans hn⟩
  obtain ⟨n, hn⟩ := jsint_sum_numeric _ hall
  exact ⟨row, n, hrow, hid, hq.trans hn, hn⟩

/-! ## C6: one row per product -/

/-- The merge of `addToBill` keeps the product of every row. -/
theorem rowIds_map_quantity (cart : List CartItem) (id : String) (q : JSInt) :
    rowIds (cart.map (fun item =>
      if item.product._id == id then { item with quantity := q } else item)) = rowIds cart := by
  induction cart with
  | nil => rfl
  | cons r rs ih =>
    simp only [rowIds, List.map_cons] at ih ⊢
    rw [ih]
    by_cases h : (r.product._id == id) = true <;> simp [h]

/-- One call of `addToBill` keeps the rows of the cart on distinct products. -/
theorem addToBill_nodup (s : State) (h : (rowIds s.cart).Nodup) :
    (rowIds (addToBill s).1.cart).Nodup := by
  rcases addToBill_cases s with ⟨hsame, -⟩ | ⟨p, -, -, hp, -, -, hcart⟩
  · rw [hsame]; exact h
  · rw [hcart]
    cases hf : s.cart.find? (fun item => item.product._id == s.selectedProductId) with
    | some r =>
      simp only [rowIds_map_quantity]
      exact h
    | none =>
      have hid := find_product_id _ _ _ hp
      simp only [rowIds, List.map_append, List.map_cons, List.map_nil] at h ⊢
      rw [List.find?_eq_none] at hf
      refine List.Nodup.append h (List.nodup_singleton _) ?_
      intro x hx hx2
      rw [List.mem_singleton] at hx2
      obtain ⟨r, hr, hrx⟩ := List.mem_map.mp hx
      have := hf r hr
      simp only [beq_iff_eq] at this
      exact this (by rw [hrx, hx2, hid])

/-- One call of `removeFromBill` keeps the rows of the cart on distinct
products. -/
theorem removeFromBill_nodup (productId : String) (s : State) (h : (rowIds s.cart).Nodup) :
    (rowIds (removeFromBill productId s).1.cart).Nodup := by
  simp only [removeFromBill, rowIds] at h ⊢
  exact List.Nodup.sublist (List.Sublist.map _ (List.filter_sublist _)) h

/-- The carts the handlers can produce have their rows on distinct products. -/
theorem reachable_rowIds_nodup (cart : List CartItem) (h : ReachableCart cart) :
    (rowIds cart).Nodup := by
  induction h with
  | empty => exact List.nodup_nil
  | add s _ ih => exact addToBill_nodup s ih
  | remove productId s _ ih => exact removeFromBill_nodup productId s ih

/-- C6: every cart reachable from the empty cart by `addToBill` and
`removeFromBill` calls has at most one row per product id. -/
theorem reachable_cart_nodup (cart : List CartItem) (h : ReachableCart cart) :
    (rowIds cart).Nodup := by
  induction h with
  | empty => exact List.nodup_nil
  | add s _ ih => exact addToBill_nodup s ih
  | remove productId s _ ih => exact removeFromBill_nodup productId s ih

/-- C6 (witness): the cart after one accepted request from the empty cart. -/
theorem reachable_cart_nodup_witness :
    (rowIds (addToBill { initialState with
        products := [{ _id := "p1", name := "Pen", price := 10, stock := 5 }],
        selectedProductId := "p1", quantity := "2" }).1.cart).Nodup :=
  reachable_cart_nodup _
    (ReachableCart.add
      { initialState with
        products := [{ _id := "p1", name := "Pen", price := 10, stock := 5 }],
        selectedProductId := "p1", quantity := "2" }
      ReachableCart.empty)

/-! ## C4: shape of the cart after an accepted request -/

/-- The cart with one Pen and three Ink is reached by two accepted requests. -/
theorem reachable_two_rows :
    ReachableCart
      [{ product := { _id := "p1", name := "Pen", price := 10, stock := 10 },
         quantity := some 1 },
       { product := { _id := "p2", name := "Ink", price := 7, stock := 3 },
         quantity := some 3 }] := by
  have h1 := ReachableCart.add
    { initialState with
      products := [{ _id := "p1", name := "Pen", price := 10, stock := 10 },
                   { _id := "p2", name := "Ink", price := 7, stock := 3 }],
      selectedProductId := "p1", quantity := "1" }
    ReachableCart.empty
  have h2 := ReachableCart.add
    { initialState with
      products := [{ _id := "p1", name := "Pen", price := 10, stock := 10 },
                   { _id := "p2", name := "Ink", price := 7, stock := 3 }],
      cart := (addToBill { initialState with
        products := [{ _id := "p1", name := "Pen", price := 10, stock := 10 },
                     { _id := "p2", name := "Ink", price := 7, stock := 3 }],
        selectedProductId := "p1", quantity := "1" }).1.cart,
      selectedProductId := "p2", quantity := "3" }
    h1
  have hc : (addToBill { initialState with
      products := [{ _id := "p1", name := "Pen", price := 10, stock := 10 },
                   { _id := "p2", name := "Ink", price := 7, stock := 3 }],
      cart := (addToBill { initialState with
        products := [{ _id := "p1", name := "Pen", price := 10, stock := 10 },
                     { _id := "p2", name := "Ink", price := 7, stock := 3 }],
        selectedProductId := "p1", quantity := "1" }).1.cart,
      selectedProductId := "p2", quantity := "3" }).1.cart
      = [{ product := { _id := "p1", name := "Pen", price := 10, stock := 10 },
           quantity := some 1 },
         { product := { _id := "p2", name := "Ink", price := 7, stock := 3 },
           quantity := some 3 }] := by decide
  rw [hc] at h2
  exact h2

/-- C4: for every cart the handlers can produce, when `addToBill` accepts a
request for the product `p` the snapshot resolves the selection to, with
parsed quantity `q`: if the cart has a row of that product, the result is the
same sequence of rows with only that row's quantity replaced by its old
quantity plus `q`; otherwise the result is the cart with the one row `(p, q)`
appended at the end. -/
theorem addToBill_accept_shape (s : State) (p : Product)
    (hfind : s.products.find? (fun x => x._id == s.selectedProductId) = some p)
    (hacc : accepted (addToBill s) = true)
    (hreach : ReachableCart s.cart) :
    ((∃ r ∈ s.cart, r.product._id = s.selectedProductId) →
      MergesOneRow s.cart (addToBill s).1.cart s.selectedProductId (parseInt s.quantity)) ∧
    ((∀ r ∈ s.cart, r.product._id ≠ s.selectedProductId) →
      (addToBill s).1.cart
        = s.cart ++ [{ product := p, quantity := parseInt s.quantity }]) :=
  addToBill_accept_shape_of_nodup s p hfind hacc (reachable_rowIds_nodup s.cart hreach)

/-- C4 (witness): merging 2 into a held quantity of 1 in a reachable two-row
cart. -/
theorem addToBill_accept_shape_witness :
    MergesOneRow
      [{ product := { _id := "p1", name := "Pen", price := 10, stock := 10 },
         quantity := some 1 },
       { product := { _id := "p2", name := "Ink", price := 7, stock := 3 },
         quantity := some 3 }]
      (addToBill { initialState with
        products := [{ _id := "p1", name := "Pen", price := 10, stock := 10 }],
        cart := [{ product := { _id := "p1", name := "Pen", price := 10, stock := 10 },
                   quantity := some 1 },
                 { product := { _id := "p2", name := "Ink", price := 7, stock := 3 },
                   quantity := some 3 }],
        selectedProductId := "p1", quantity := "2" }).1.cart
      "p1" (parseInt "2") :=
  (addToBill_accept_shape
    { initialState with
        products := [{ _id := "p1", name := "Pen", price := 10, stock := 10 }],
        cart := [{ product := { _id := "p1", name := "Pen", price := 10, stock := 10 },
                   quantity := some 1 },
                 { product := { _id := "p2", name := "Ink", price := 7, stock := 3 },
                   quantity := some 3 }],
        selectedProductId := "p1", quantity := "2" }
    { _id := "p1", name := "Pen", price := 10, stock := 10 }
    (by decide) (by decide) reachable_two_rows).1
    ⟨{ product := { _id := "p1", name := "Pen", price := 10, stock := 10 },
       quantity := some 1 }, by decide, by decide⟩

/-! ## Bill finaliser: C7 to C10 -/

/-- A non-empty cart has a non-zero length. -/
theorem cart_length_ne_zero (s : State) (h : s.cart ≠ []) : ¬ s.cart.length = 0 := by
  intro h0
  exact h (List.length_eq_zero.mp h0)

/-- C7: on a non-empty cart, when the update-stock request fails, the handler
leaves the cart rows, the discount and the selected customer as they were and
calls neither `window.print` nor `generatePDF` (its trace is: processing on,
the request, the log line, the error toast, processing off). -/
theorem finalization_commit_failure (action : String) (o : Outcomes) (s : State)
    (serverError : Option String)
    (hcart : s.cart ≠ []) (hfail : o.post = PostOutcome.failed serverError) :
    (handleBillFinalization action o s).1.cart = s.cart ∧
    (handleBillFinalization action o s).1.discount = s.discount ∧
    (handleBillFinalization action o s).1.selectedCustomerId = s.selectedCustomerId ∧
    Effect.windowPrint ∉ (handleBillFinalization action o s).2 ∧
    Effect.generatePDF ∉ (handleBillFinalization action o s).2 ∧
    Effect.savePDF ∉ (handleBillFinalization action o s).2 ∧
    (handleBillFinalization action o s).2
      = [Effect.setIsProcessing true, Effect.postUpdateStock (stockItems s.cart),
         Effect.consoleError "Error finalizing bill:",
         Effect.toast ⟨Level.error, finalizeErrorMsg serverError⟩,
         Effect.setIsProcessing false] := by
  have hlen := cart_length_ne_zero s hcart
  have htrace : finalizationTrace action o s
      = [Effect.setIsProcessing true, Effect.postUpdateStock (stockItems s.cart),
         Effect.consoleError "Error finalizing bill:",
         Effect.toast ⟨Level.error, finalizeErrorMsg serverError⟩,
         Effect.setIsProcessing false] := by
    simp [finalizationTrace, hlen, hfail, catchFinally, stockItems]
  simp [handleBillFinalization, htrace, applyEffect]

/-- C7 (witness): a one-row cart with discount 10 and a rejected request. -/
theorem finalization_commit_failure_witness :
    (handleBillFinalization "print" ⟨PostOutcome.failed (some "Insufficient stock"), false, false⟩
      { initialState with
        cart := [{ product := { _id := "p1", name := "Pen", price := 10, stock := 5 },
                   quantity := some 2 }],
        discount := 10, selectedCustomerId := "c1" }).1.cart
      = [{ product := { _id := "p1", name := "Pen", price := 10, stock := 5 },
           quantity := some 2 }] ∧
    (handleBillFinalization "print" ⟨PostOutcome.failed (some "Insufficient stock"), false, false⟩
      { initialState with
        cart := [{ product := { _id := "p1", name := "Pen", price := 10, stock := 5 },
                   quantity := some 2 }],
        discount := 10, selectedCustomerId := "c1" }).1.discount = 10 :=
  have h := finalization_commit_failure "print"
    ⟨PostOutcome.failed (some "Insufficient stock"), false, false⟩
    { initialState with
        cart := [{ product := { _id := "p1", name := "Pen", price := 10, stock := 5 },
                   quantity := some 2 }],
        discount := 10, selectedCustomerId := "c1" }
    (some "Insufficient stock") (by decide) rfl
  ⟨h.1, h.2.1⟩

/-- C8: on a non-empty cart, when the update-stock request succeeds and the
requested action (print or download) completes, the handler ends with the
cart empty and the discount 0, and it calls `fetchProducts` after the
update-stock request. -/
theorem finalization_success (action : String) (o : Outcomes) (s : State)
    (hcart : s.cart ≠ []) (hok : o.post = PostOutcome.ok)
    (hdone : actionCompletes action o) :
    (handleBillFinalization action o s).1.cart = [] ∧
    (handleBillFinalization action o s).1.discount = 0 ∧
    ∃ before between after,
      (handleBillFinalization action o s).2
        = before ++ Effect.postUpdateStock (stockItems s.cart) :: between
            ++ Effect.fetchProducts :: after := by
  have hlen := cart_length_ne_zero s hcart
  rcases hdone with ⟨ha, hp⟩ | ⟨ha, hp⟩
  · have htrace : finalizationTrace action o s
        = [Effect.setIsProcessing true] ++ Effect.postUpdateStock (stockItems s.cart)
            :: [Effect.windowPrint, Effect.setCart [], Effect.setSelectedCustomerId "",
                Effect.setCustomerQuery "", Effect.setDiscount 0]
            ++ Effect.fetchProducts
            :: [Effect.toast ⟨Level.success, Msg.lit "Bill printed and stock updated!"⟩,
                Effect.setIsProcessing false] := by
      simp [finalizationTrace, hlen, hok, ha, hp, resetAndRefresh, stockItems]
    refine ⟨?_, ?_, _, _, _, by simpa only [handleBillFinalization] using htrace⟩
    · simp [handleBillFinalization, htrace, applyEffect]
    · simp [handleBillFinalization, htrace, applyEffect]
  · have htrace : finalizationTrace action o s
        = [Effect.setIsProcessing true] ++ Effect.postUpdateStock (stockItems s.cart)
            :: [Effect.generatePDF, Effect.savePDF, Effect.setCart [],
                Effect.setSelectedCustomerId "", Effect.setCustomerQuery "",
                Effect.setDiscount 0]
            ++ Effect.fetchProducts
            :: [Effect.toast ⟨Level.success, Msg.lit "Bill downloaded and stock updated!"⟩,
                Effect.setIsProcessing false] := by
      simp [finalizationTrace, hlen, hok, ha, hp, resetAndRefresh, stockItems, generatePDF]
    refine ⟨?_, ?_, _, _, _, by simpa only [handleBillFinalization] using htrace⟩
    · simp [handleBillFinalization, htrace, applyEffect]
    · simp [handleBillFinalization, htrace, applyEffect]

/-- C8 (witness): download of a one-row bill with discount 10. -/
theorem finalization_success_witness :
    (handleBillFinalization "download" ⟨PostOutcome.ok, false, false⟩
      { initialState with
        cart := [{ product := { _id := "p1", name := "Pen", price := 10, stock := 5 },
                   quantity := some 2 }],
        discount := 10 }).1.cart = [] ∧
    (handleBillFinalization "download" ⟨PostOutcome.ok, false, false⟩
      { initialState with
        cart := [{ product := { _id := "p1", name := "Pen", price := 10, stock := 5 },
                   quantity := some 2 }],
        discount := 10 }).1.discount = 0 :=
  have h := finalization_success "download" ⟨PostOutcome.ok, false, false⟩
    { initialState with
        cart := [{ product := { _id := "p1", name := "Pen", price := 10, stock := 5 },
                   quantity := some 2 }],
        discount := 10 }
    (by decide) rfl (Or.inr ⟨rfl, rfl⟩)
  ⟨h.1, h.2.1⟩

/-- C9: on an empty cart the handler, for any action, only shows the
"Cart is empty" warning: no request is issued, no renderer is called and the
state (cart, discount and `isProcessing` included) is unchanged. -/
theorem finalization_empty_cart (action : String) (o : Outcomes) (s : State)
    (hcart : s.cart = []) :
    (handleBillFinalization action o s).2
      = [Effect.toast ⟨Level.warning, Msg.lit "Cart is empty"⟩] ∧
    (handleBillFinalization action o s).1 = s := by
  have htrace : finalizationTrace action o s
      = [Effect.toast ⟨Level.warning, Msg.lit "Cart is empty"⟩] := by
    simp [finalizationTrace, hcart]
  simp [handleBillFinalization, htrace, applyEffect]

/-- C9 (witness): the state at mount, with either action. -/
theorem finalization_empty_cart_witness :
    (handleBillFinalization "print" ⟨PostOutcome.ok, false, false⟩ initialState).2
      = [Effect.toast ⟨Level.warning, Msg.lit "Cart is empty"⟩] ∧
    (handleBillFinalization "print" ⟨PostOutcome.ok, false, false⟩ initialState).1
      = initialState :=
  finalization_empty_cart "print" ⟨PostOutcome.ok, false, false⟩ initialState rfl

/-- C10 (failing inputs): after a successful stock commit, a failed document
generation is followed by the reset and the success toast "Bill downloaded
and stock updated!", and a throwing `window.print` is reported with the
stock-commit message "Failed to update stock. Bill not finalized.". -/
theorem finalization_render_failure_reports :
    (handleBillFinalization "download" ⟨PostOutcome.ok, false, true⟩
      { initialState with
        cart := [{ product := { _id := "p1", name := "Pen", price := 10, stock := 5 },
                   quantity := some 2 }] }).2
      = [Effect.setIsProcessing true,
         Effect.postUpdateStock [{ productId := "p1", quantity := some 2 }],
         Effect.generatePDF,
         Effect.consoleError "PDF Generation Error:",
         Effect.toast ⟨Level.error, Msg.lit "Error generating PDF"⟩,
         Effect.setCart [], Effect.setSelectedCustomerId "", Effect.setCustomerQuery "",
         Effect.setDiscount 0, Effect.fetchProducts,
         Effect.toast ⟨Level.success, Msg.lit "Bill downloaded and stock updated!"⟩,
         Effect.setIsProcessing false] ∧
    (handleBillFinalization "print" ⟨PostOutcome.ok, true, false⟩
      { initialState with
        cart := [{ product := { _id := "p1", name := "Pen", price := 10, stock := 5 },
                   quantity := some 2 }] }).2
      = [Effect.setIsProcessing true,
         Effect.postUpdateStock [{ productId := "p1", quantity := some 2 }],
         Effect.windowPrint,
         Effect.consoleError "Error finalizing bill:",
         Effect.toast ⟨Level.error, Msg.lit "Failed to update stock. Bill not finalized."⟩,
         Effect.setIsProcessing false] := by
  constructor <;> decide

/-! ## C11: the items of the update-stock request -/

/-- C11: on a non-empty cart, for every action and every outcome, the handler
issues exactly one update-stock request; its items list has one entry per
cart row, in cart order, and the entry at each position carries the product
id and the quantity of the row at that position. -/
theorem finalization_items (action : String) (o : Outcomes) (s : State)
    (hcart : s.cart ≠ []) :
    ∃ items, (handleBillFinalization action o s).2[1]? = some (Effect.postUpdateStock items) ∧
      (∀ other, Effect.postUpdateStock other ∈ (handleBillFinalization action o s).2 →
        other = items) ∧
      items.length = s.cart.length ∧
      ∀ (i : Nat) (row : CartItem), s.cart[i]? = some row →
        items[i]? = some { productId := row.product._id, quantity := row.quantity } := by
  have hlen := cart_length_ne_zero s hcart
  refine ⟨stockItems s.cart, ?_, ?_, by simp [stockItems], ?_⟩
  · simp [handleBillFinalization, finalizationTrace, hlen, stockItems]
  · intro other hmem
    simp only [handleBillFinalization, finalizationTrace, hlen, if_false] at hmem
    rcases ho : o.post with _ | e
    · by_cases hp : action = "print"
      · by_cases ht : o.printThrows = true
        · simpa [ho, hp, ht, catchFinally, stockItems] using hmem
        · simpa [ho, hp, ht, resetAndRefresh, stockItems] using hmem
      · by_cases hd : action = "download"
        · by_cases hpdf : o.pdfThrows = true
          · simpa [ho, hp, hd, hpdf, hlen, generatePDF, resetAndRefresh, stockItems] using hmem
          · simpa [ho, hp, hd, hpdf, hlen, generatePDF, resetAndRefresh, stockItems] using hmem
        · simpa [ho, hp, hd, resetAndRefresh, stockItems] using hmem
    · simpa [ho, catchFinally, stockItems] using hmem
  · intro i row hi
    simp [stockItems, hi]

/-- C11 (witness): a two-row cart sends two entries in cart order. -/
theorem finalization_items_witness :
    ∃ items,
      (handleBillFinalization "print" ⟨PostOutcome.ok, false, false⟩
        { initialState with
          cart := [{ product := { _id := "p1", name := "Pen", price := 10, stock := 5 },
                     quantity := some 2 },
                   { product := { _id := "p2", name := "Ink", price := 7, stock := 3 },
                     quantity := some 1 }] }).2[1]?
        = some (Effect.postUpdateStock items) ∧
      items.length = 2 :=
  have h := finalization_items "print" ⟨PostOutcome.ok, false, false⟩
    { initialState with
      cart := [{ product := { _id := "p1", name := "Pen", price := 10, stock := 5 },
                 quantity := some 2 },
               { product := { _id := "p2", name := "Ink", price := 7, stock := 3 },
                 quantity := some 1 }] }
    (by decide)
  h.elim (fun items hi => ⟨items, hi.1, hi.2.2.1⟩)

/-! ## C12: removal of a row -/

/-- A filter that drops only rows of a product absent from the cart keeps the
cart. -/
theorem filter_absent (cart : List CartItem) (id : String)
    (h : ∀ r ∈ cart, r.product._id ≠ id) :
    cart.filter (fun item => item.product._id != id) = cart := by
  rw [List.filter_eq_self]
  intro r hr
  simpa using h r hr

/-- In a cart with one row per product, the filter of `removeFromBill` erases
exactly the row of the product. -/
theorem filter_eq_eraseIdx_of_nodup (cart : List CartItem) (id : String) :
    ∀ (i : Nat) (row : CartItem), (rowIds cart).Nodup → cart[i]? = some row →
      row.product._id = id →
      cart.filter (fun item => item.product._id != id) = cart.eraseIdx i := by
  induction cart with
  | nil => intro i row _ hi; simp at hi
  | cons r rs ih =>
    intro i row hnd hi hid
    simp only [rowIds, List.map_cons, List.nodup_cons, List.mem_map, not_exists, not_and] at hnd
    cases i with
    | zero =>
      have hr : r = row := by simpa using hi
      subst hr
      have habs : ∀ x ∈ rs, x.product._id ≠ id := by
        intro x hx hxe
        exact hnd.1 x hx (hxe.trans hid.symm)
      have hb : (r.product._id != id) = false := by simpa using hid
      simp only [List.filter_cons, hb, Bool.false_eq_true, if_false, List.eraseIdx_cons_zero]
      exact filter_absent rs id habs
    | succ j =>
      have hj : rs[j]? = some row := by simpa using hi
      have hmem : row ∈ rs := List.getElem?_mem hj
      have hr : r.product._id ≠ id := by
        intro hre
        exact hnd.1 row hmem (hid.trans hre.symm)
      have hb : (r.product._id != id) = true := by simpa using hr
      simp only [List.filter_cons, hb, if_true, List.eraseIdx_cons_succ]
      rw [ih j row hnd.2 hj hid]

/-- C12: on a cart with at most one row per product id, `removeFromBill(id)`
yields exactly the rows whose product id differs from `id`, in their original
order; the cart is unchanged when `id` is absent; when `id` is present exactly
that row is erased; and a second call changes nothing more. -/
theorem removeFromBill_exact (productId : String) (s : State)
    (hnd : (rowIds s.cart).Nodup) :
    (removeFromBill productId s).1.cart.Sublist s.cart ∧
    (∀ row, row ∈ (removeFromBill productId s).1.cart ↔
      (row ∈ s.cart ∧ row.product._id ≠ productId)) ∧
    (productId ∉ rowIds s.cart → (removeFromBill productId s).1.cart = s.cart) ∧
    (∀ (i : Nat) (row : CartItem), s.cart[i]? = some row → row.product._id = productId →
      (removeFromBill productId s).1.cart = s.cart.eraseIdx i) ∧
    (removeFromBill productId (removeFromBill productId s).1).1.cart
      = (removeFromBill productId s).1.cart := by
  refine ⟨?_, ?_, ?_, ?_, ?_⟩
  · exact List.filter_sublist _
  · intro row
    simp [removeFromBill, List.mem_filter]
  · intro habs
    have h : ∀ r ∈ s.cart, r.product._id ≠ productId := by
      intro r hr hre
      exact habs (List.mem_map.mpr ⟨r, hr, hre⟩)
    simpa only [removeFromBill] using filter_absent s.cart productId h
  · intro i row hi hid
    simpa only [removeFromBill] using filter_eq_eraseIdx_of_nodup s.cart productId i row hnd hi hid
  · simp [removeFromBill, List.filter_filter]

/-- C12 (witness): removing the first of two rows, once and twice. -/
theorem removeFromBill_exact_witness :
    (removeFromBill "p1" { initialState with
        cart := [{ product := { _id := "p1", name := "Pen", price := 10, stock := 5 },
                   quantity := some 2 },
                 { product := { _id := "p2", name := "Ink", price := 7, stock := 3 },
                   quantity := some 1 }] }).1.cart
      = [{ product := { _id := "p2", name := "Ink", price := 7, stock := 3 },
           quantity := some 1 }] :=
  (removeFromBill_exact "p1"
    { initialState with
        cart := [{ product := { _id := "p1", name := "Pen", price := 10, stock := 5 },
                   quantity := some 2 },
                 { product := { _id := "p2", name := "Ink", price := 7, stock := 3 },
                   quantity := some 1 }] }
    (by decide)).2.2.2.1 0
    { product := { _id := "p1", name := "Pen", price := 10, stock := 5 }, quantity := some 2 }
    rfl rfl

/-! ## C13: rejected requests -/

/-- When the quantity field parses to a number below 1, and when the
snapshot has no product with the selected id, `addToBill` changes nothing and
shows a warning or an error, never the success toast; with a product selected
the toasts are "Quantity must be at least 1" and, for a quantity that passes,
"Product not found". -/
theorem addToBill_rejects_invalid (s : State)
    (h : (∃ q : Int, parseInt s.quantity = some q ∧ q < 1) ∨
         s.products.find? (fun p => p._id == s.selectedProductId) = none) :
    (addToBill s).1 = s ∧
    ((addToBill s).2.level = Level.warning ∨ (addToBill s).2.level = Level.error) ∧
    (s.selectedProductId ≠ "" → (∃ q : Int, parseInt s.quantity = some q ∧ q < 1) →
      (addToBill s).2 = ⟨Level.warning, Msg.lit "Quantity must be at least 1"⟩) ∧
    (s.selectedProductId ≠ "" → JSInt.le (parseInt s.quantity) (some 0) = false →
      s.products.find? (fun p => p._id == s.selectedProductId) = none →
      (addToBill s).2 = ⟨Level.error, Msg.lit "Product not found"⟩) := by
  have hle : ∀ q : Int, parseInt s.quantity = some q → q < 1 →
      JSInt.le (parseInt s.quantity) (some 0) = true := by
    intro q hq hq1
    rw [hq]
    simp only [JSInt.le, decide_eq_true_eq]
    omega
  refine ⟨?_, ?_, ?_, ?_⟩
  · unfold addToBill
    by_cases hsel : s.selectedProductId = ""
    · simp [hsel]
    · rcases h with ⟨q, hq, hq1⟩ | hnone
      · simp [hsel, hle q hq hq1]
      · by_cases hq : JSInt.le (parseInt s.quantity) (some 0) = true
        · simp [hsel, hq]
        · simp [hsel, hq, hnone]
  · unfold addToBill
    by_cases hsel : s.selectedProductId = ""
    · simp [hsel]
    · rcases h with ⟨q, hq, hq1⟩ | hnone
      · simp [hsel, hle q hq hq1]
      · by_cases hq : JSInt.le (parseInt s.quantity) (some 0) = true
        · simp [hsel, hq]
        · simp [hsel, hq, hnone]
  · rintro hsel ⟨q, hq, hq1⟩
    unfold addToBill
    simp [hsel, hle q hq hq1]
  · intro hsel hq hnone
    unfold addToBill
    simp [hsel, hq, hnone]

/-- Quantity 0 for a product of the snapshot is rejected. -/
theorem addToBill_rejects_invalid_example :
    (addToBill { initialState with
        products := [{ _id := "p1", name := "Pen", price := 10, stock := 5 }],
        selectedProductId := "p1", quantity := "0" }).1.cart = [] ∧
    ((addToBill { initialState with
        products := [{ _id := "p1", name := "Pen", price := 10, stock := 5 }],
        selectedProductId := "p1", quantity := "0" }).2.level = Level.warning ∨
     (addToBill { initialState with
        products := [{ _id := "p1", name := "Pen", price := 10, stock := 5 }],
        selectedProductId := "p1", quantity := "0" }).2.level = Level.error) :=
  have h := addToBill_rejects_invalid
    { initialState with
        products := [{ _id := "p1", name := "Pen", price := 10, stock := 5 }],
        selectedProductId := "p1", quantity := "0" }
    (Or.inl ⟨0, by decide, by decide⟩)
  ⟨by rw [h.1]; rfl, h.2.1⟩

/-- C13 (failing input): with product `p1` of the snapshot selected, the
quantity texts ".5" and "-.5", which a number field can hold and which stand
for requests below 1, parse to `NaN`; the guard `qty <= 0` is false and
`addToBill` appends a row and shows the success toast. -/
theorem addToBill_fraction_below_one_accepted :
    parseInt ".5" = none ∧ parseInt "-.5" = none ∧
    addToBill { initialState with
        products := [{ _id := "p1", name := "Pen", price := 10, stock := 5 }],
        selectedProductId := "p1", quantity := ".5" }
      = ({ initialState with
            products := [{ _id := "p1", name := "Pen", price := 10, stock := 5 }],
            cart := [{ product := { _id := "p1", name := "Pen", price := 10, stock := 5 },
                       quantity := none }] },
         ⟨Level.success, Msg.addedToBill "Pen"⟩) ∧
    addToBill { initialState with
        products := [{ _id := "p1", name := "Pen", price := 10, stock := 5 }],
        selectedProductId := "p1", quantity := "-.5" }
      = ({ initialState with
            products := [{ _id := "p1", name := "Pen", price := 10, stock := 5 }],
            cart := [{ product := { _id := "p1", name := "Pen", price := 10, stock := 5 },
                       quantity := none }] },
         ⟨Level.success, Msg.addedToBill "Pen"⟩) := by
  decide

/-! ## C14: quantities of reachable carts -/

/-- C14 (failing input): from the empty cart, one `addToBill` with the
quantity field empty reaches a cart whose row has the quantity `NaN`, which is
no integer at or above 1; the text ".5" parses to `NaN` as well. -/
theorem reachable_cart_nan_quantity :
    ReachableCart
      [{ product := { _id := "p1", name := "Pen", price := 10, stock := 5 },
         quantity := none }] ∧
    (∀ r ∈ ([{ product := { _id := "p1", name := "Pen", price := 10, stock := 5 },
               quantity := none }] : List CartItem),
      ¬ ∃ n : Int, r.quantity = some n ∧ 1 ≤ n) ∧
    parseInt "" = none ∧ parseInt ".5" = none := by
  refine ⟨?_, ?_, by decide, by decide⟩
  · have h := ReachableCart.add
      { initialState with
        products := [{ _id := "p1", name := "Pen", price := 10, stock := 5 }],
        selectedProductId := "p1", quantity := "" }
      ReachableCart.empty
    have hc : (addToBill { initialState with
        products := [{ _id := "p1", name := "Pen", price := 10, stock := 5 }],
        selectedProductId := "p1", quantity := "" }).1.cart
        = [{ product := { _id := "p1", name := "Pen", price := 10, stock := 5 },
             quantity := none }] := by decide
    rw [hc] at h
    exact h
  · intro r hr
    rw [List.mem_singleton] at hr
    rw [hr]
    rintro ⟨n, hn, -⟩
    cases hn

/-- When the quantity field parses to a number, `addToBill` keeps every row
on an integer quantity at or above 1. -/
theorem addToBill_numeric_quantities_pos (s : State) (q : Int)
    (hq : parseInt s.quantity = some q)
    (hinv : ∀ r ∈ s.cart, ∃ n : Int, r.quantity = some n ∧ 1 ≤ n) :
    ∀ r ∈ (addToBill s).1.cart, ∃ n : Int, r.quantity = some n ∧ 1 ≤ n := by
  rcases addToBill_cases s with ⟨hsame, -⟩ | ⟨p, -, hle, -, -, -, hcart⟩
  · rw [hsame]; exact hinv
  · rw [hq] at hle hcart
    have hq1 : 1 ≤ q := by
      simp only [JSInt.le, decide_eq_false_iff_not, not_le] at hle
      omega
    intro r hr
    rw [hcart] at hr
    cases hf : s.cart.find? (fun item => item.product._id == s.selectedProductId) with
    | some found =>
      rw [hf] at hr
      obtain ⟨n, hn, hn1⟩ := hinv found (List.mem_of_find?_eq_some hf)
      have hh : heldQuantity s.cart s.selectedProductId = some n := by
        simp only [heldQuantity, hf, hn]
      rw [hh] at hr
      obtain ⟨r0, hr0, hmap⟩ := List.mem_map.mp hr
      by_cases hb : (r0.product._id == s.selectedProductId) = true
      · simp only [hb, if_true] at hmap
        refine ⟨n + q, ?_, by omega⟩
        rw [← hmap]
        rfl
      · simp only [hb, Bool.false_eq_true, if_false] at hmap
        rw [← hmap]
        exact hinv r0 hr0
    | none =>
      rw [hf] at hr
      rcases List.mem_append.mp hr with hin | hin
      · exact hinv r hin
      · rw [List.mem_singleton] at hin
        exact ⟨q, by rw [hin], hq1⟩

/-! ## C15 and C17: customer selection -/

/-- C15 (counterexample): a customer record with discount 150 sets the
discount to 150, and one with discount -5 sets it to -5; neither is in the
range 0 to 100. -/
theorem selectCustomer_discount_not_clamped :
    (selectCustomer (some
        { _id := "c1", name := "Ann", phone := "1", discountPercentage := some 150 }) initialState).discount = 150 ∧
    ¬ ((selectCustomer (some
        { _id := "c1", name := "Ann", phone := "1", discountPercentage := some 150 }) initialState).discount ≤ 100) ∧
    (selectCustomer (some
        { _id := "c2", name := "Bob", phone := "2", discountPercentage := some (-5) }) initialState).discount = -5 ∧
    ¬ (0 ≤ (selectCustomer (some
        { _id := "c2", name := "Bob", phone := "2", discountPercentage := some (-5) }) initialState).discount) := by
  simp only [selectCustomer, Option.getD_some]
  norm_num

/-- C15 (amended): after `selectCustomer` with a customer record the discount
is the record's `discountPercentage`, or 0 when it is missing; it is in the
range 0 to 100 whenever the record's value is missing or in that range. -/
theorem selectCustomer_discount (c : Customer) (s : State) :
    (selectCustomer (some c) s).discount = c.discountPercentage.getD 0 ∧
    (c.discountPercentage = none → (selectCustomer (some c) s).discount = 0) ∧
    ((∀ d, c.discountPercentage = some d → 0 ≤ d ∧ d ≤ 100) →
      0 ≤ (selectCustomer (some c) s).discount ∧
      (selectCustomer (some c) s).discount ≤ 100) := by
  refine ⟨rfl, ?_, ?_⟩
  · intro h
    simp [selectCustomer, h]
  · intro h
    cases hd : c.discountPercentage with
    | none => simp [selectCustomer, hd]
    | some d =>
      have := h d hd
      simpa [selectCustomer, hd] using this

/-- C15 (witness): a record with discount 10. -/
theorem selectCustomer_discount_witness :
    0 ≤ (selectCustomer (some
        { _id := "c1", name := "Ann", phone := "1", discountPercentage := some 10 }) initialState).discount ∧
    (selectCustomer (some
        { _id := "c1", name := "Ann", phone := "1", discountPercentage := some 10 }) initialState).discount ≤ 100 :=
  (selectCustomer_discount
    { _id := "c1", name := "Ann", phone := "1", discountPercentage := some 10 }
    initialState).2.2
    (by
      intro d hd
      have hd2 : d = 10 := (Option.some.inj hd).symm
      rw [hd2]
      norm_num)

/-- C17 (counterexample): deselecting the customer, by `selectCustomer(null)`
or by emptying the customer field, on a cart with one row leaves that row in
the cart. -/
theorem deselect_keeps_cart :
    (selectCustomer none { initialState with
        cart := [{ product := { _id := "p1", name := "Pen", price := 10, stock := 5 },
                   quantity := some 2 }],
        discount := 10, selectedCustomerId := "c1", customerQuery := "Ann" }).cart
      = [{ product := { _id := "p1", name := "Pen", price := 10, stock := 5 },
           quantity := some 2 }] ∧
    (customerQueryChange "" { initialState with
        cart := [{ product := { _id := "p1", name := "Pen", price := 10, stock := 5 },
                   quantity := some 2 }],
        discount := 10, selectedCustomerId := "c1", customerQuery := "Ann" }).cart
      = [{ product := { _id := "p1", name := "Pen", price := 10, stock := 5 },
           quantity := some 2 }] ∧
    (selectCustomer none { initialState with
        cart := [{ product := { _id := "p1", name := "Pen", price := 10, stock := 5 },
                   quantity := some 2 }],
        discount := 10, selectedCustomerId := "c1", customerQuery := "Ann" }).cart ≠ [] := by
  refine ⟨rfl, rfl, ?_⟩
  simp [selectCustomer]

/-- C17 (amended): explicit customer deselection, by `selectCustomer(null)` or
by emptying the customer field, resets the discount to 0 and the selected
customer to none, and leaves the cart as it was. -/
theorem deselect_resets_discount (s : State) :
    (selectCustomer none s).discount = 0 ∧
    (selectCustomer none s).selectedCustomerId = "" ∧
    (selectCustomer none s).customerQuery = "" ∧
    (selectCustomer none s).cart = s.cart ∧
    (customerQueryChange "" s).discount = 0 ∧
    (customerQueryChange "" s).selectedCustomerId = "" ∧
    (customerQueryChange "" s).cart = s.cart := by
  simp [selectCustomer, customerQueryChange]

/-! ## C18: carts with two rows of one product at finalisation -/

/-- C18 (counterexample): on a cart with two rows of product `p1`, the handler
sends the update-stock request, with two entries for `p1`, and with the
request fulfilled it goes on to the success toast. -/
theorem finalization_duplicate_rows_sent :
    (handleBillFinalization "print" ⟨PostOutcome.ok, false, false⟩
      { initialState with
        cart := [{ product := { _id := "p1", name := "Pen", price := 10, stock := 5 },
                   quantity := some 1 },
                 { product := { _id := "p1", name := "Pen", price := 10, stock := 5 },
                   quantity := some 2 }] }).2
      = [Effect.setIsProcessing true,
         Effect.postUpdateStock
           [{ productId := "p1", quantity := some 1 }, { productId := "p1", quantity := some 2 }],
         Effect.windowPrint,
         Effect.setCart [], Effect.setSelectedCustomerId "", Effect.setCustomerQuery "",
         Effect.setDiscount 0, Effect.fetchProducts,
         Effect.toast ⟨Level.success, Msg.lit "Bill printed and stock updated!"⟩,
         Effect.setIsProcessing false] := by
  decide

/-- C18 (amended): on a cart in which a product id occurs in two rows, the
handler makes no check of its own: its first step is `setIsProcessing(true)`,
not an error, and its second step is the update-stock request, whose entries
carry the product ids of the rows in order, so the id occurs twice among
them, with the quantities of the rows unsummed. -/
theorem finalization_duplicate_rows (action : String) (o : Outcomes) (s : State)
    (hdup : ¬ (rowIds s.cart).Nodup) :
    ∃ items, (handleBillFinalization action o s).2[0]? = some (Effect.setIsProcessing true) ∧
      (handleBillFinalization action o s).2[1]? = some (Effect.postUpdateStock items) ∧
      items.map (fun e => e.productId) = rowIds s.cart ∧
      items.map (fun e => e.quantity) = s.cart.map (fun r => r.quantity) ∧
      ¬ (items.map (fun e => e.productId)).Nodup := by
  have hcart : s.cart ≠ [] := by
    intro h
    rw [h] at hdup
    exact hdup List.nodup_nil
  have hlen := cart_length_ne_zero s hcart
  have hids : (stockItems s.cart).map (fun e => e.productId) = rowIds s.cart := by
    simp [stockItems, rowIds]
  refine ⟨stockItems s.cart, ?_, ?_, hids, ?_, ?_⟩
  · simp [handleBillFinalization, finalizationTrace, hlen]
  · simp [handleBillFinalization, finalizationTrace, hlen, stockItems]
  · simp [stockItems]
  · rw [hids]; exact hdup

/-- C18 (witness): the second step on a cart with two rows of `p1`. -/
theorem finalization_duplicate_rows_witness :
    ∃ items,
      (handleBillFinalization "download" ⟨PostOutcome.failed none, false, false⟩
        { initialState with
          cart := [{ product := { _id := "p1", name := "Pen", price := 10, stock := 5 },
                     quantity := some 1 },
                   { product := { _id := "p1", name := "Pen", price := 10, stock := 5 },
                     quantity := some 2 }] }).2[1]?
        = some (Effect.postUpdateStock items) ∧
      ¬ (items.map (fun e => e.productId)).Nodup :=
  have h := finalization_duplicate_rows "download" ⟨PostOutcome.failed none, false, false⟩
    { initialState with
      cart := [{ product := { _id := "p1", name := "Pen", price := 10, stock := 5 },
                 quantity := some 1 },
               { product := { _id := "p1", name := "Pen", price := 10, stock := 5 },
                 quantity := some 2 }] }
    (by decide)
  h.elim (fun items hi => ⟨items, hi.2.1, hi.2.2.2.2⟩)

/-! ## C16: the processing flag -/

/-- Effects other than `setIsProcessing` keep the flag. -/
theorem foldl_keeps_isProcessing (es : List Effect) (s : State)
    (h : ∀ e ∈ es, isProcessingSetter e = false) :
    (es.foldl applyEffect s).isProcessing = s.isProcessing := by
  induction es generalizing s with
  | nil => rfl
  | cons e es ih =>
    simp only [List.foldl_cons]
    rw [ih _ (fun x hx => h x (List.mem_cons_of_mem _ hx))]
    have he := h e (List.mem_cons_self _ _)
    cases e <;> simp [applyEffect, isProcessingSetter] at he ⊢

/-- On a non-empty cart the trace of the handler is: processing on, the
update-stock request, steps that do not touch the flag, processing off. -/
theorem finalizationTrace_shape (action : String) (o : Outcomes) (s : State)
    (hcart : s.cart ≠ []) :
    ∃ mid, finalizationTrace action o s
        = Effect.setIsProcessing true :: Effect.postUpdateStock (stockItems s.cart)
            :: (mid ++ [Effect.setIsProcessing false]) ∧
      ∀ e ∈ mid, isProcessingSetter e = false := by
  have hlen := cart_length_ne_zero s hcart
  rcases ho : o.post with _ | e
  · by_cases hp : action = "print"
    · by_cases ht : o.printThrows = true
      · refine ⟨[Effect.windowPrint, Effect.consoleError "Error finalizing bill:",
          Effect.toast ⟨Level.error, finalizeErrorMsg none⟩], ?_, ?_⟩
        · simp [finalizationTrace, hlen, ho, hp, ht, catchFinally, stockItems]
        · simp [isProcessingSetter]
      · refine ⟨[Effect.windowPrint, Effect.setCart [], Effect.setSelectedCustomerId "",
          Effect.setCustomerQuery "", Effect.setDiscount 0, Effect.fetchProducts,
          Effect.toast ⟨Level.success, Msg.lit "Bill printed and stock updated!"⟩], ?_, ?_⟩
        · simp [finalizationTrace, hlen, ho, hp, ht, resetAndRefresh, stockItems]
        · simp [isProcessingSetter]
    · by_cases hd : action = "download"
      · refine ⟨(generatePDF o.pdfThrows s).1 ++ [Effect.setCart [],
          Effect.setSelectedCustomerId "", Effect.setCustomerQuery "", Effect.setDiscount 0,
          Effect.fetchProducts,
          Effect.toast ⟨Level.success, Msg.lit "Bill downloaded and stock updated!"⟩], ?_, ?_⟩
        · simp [finalizationTrace, hlen, ho, hd, resetAndRefresh, stockItems]
        · by_cases hpdf : o.pdfThrows = true
          · simp [generatePDF, hlen, hpdf, isProcessingSetter]
          · simp [generatePDF, hlen, hpdf, isProcessingSetter]
      · refine ⟨[Effect.setCart [], Effect.setSelectedCustomerId "",
          Effect.setCustomerQuery "", Effect.setDiscount 0, Effect.fetchProducts,
          Effect.toast ⟨Level.success, Msg.lit "Bill downloaded and stock updated!"⟩], ?_, ?_⟩
        · simp [finalizationTrace, hlen, ho, hp, hd, resetAndRefresh, stockItems]
        · simp [isProcessingSetter]
  · refine ⟨[Effect.consoleError "Error finalizing bill:",
      Effect.toast ⟨Level.error, finalizeErrorMsg e⟩], ?_, ?_⟩
    · simp [finalizationTrace, hlen, ho, catchFinally, stockItems]
    · simp [isProcessingSetter]

/-- C16: on a non-empty cart, for every action and every outcome of the
request and of the renderer, the handler calls `setIsProcessing(true)` before
it issues the update-stock request, the flag is true after every later step
but the last, the last step is `setIsProcessing(false)` so the flag is false
when the handler has finished, and whenever the flag is true both finalize
buttons are disabled. -/
theorem finalization_processing_flag (action : String) (o : Outcomes) (s : State)
    (hcart : s.cart ≠ []) :
    (∃ items mid, (handleBillFinalization action o s).2
        = Effect.setIsProcessing true :: Effect.postUpdateStock items
            :: (mid ++ [Effect.setIsProcessing false]) ∧
      ∀ e ∈ mid, isProcessingSetter e = false) ∧
    (∀ k, 1 ≤ k → k < (handleBillFinalization action o s).2.length →
      (stateAfter k (handleBillFinalization action o s).2 s).isProcessing = true) ∧
    (handleBillFinalization action o s).1.isProcessing = false ∧
    (∀ st : State, st.isProcessing = true →
      printDisabled st = true ∧ downloadDisabled st = true) := by
  obtain ⟨mid, htrace, hmid⟩ := finalizationTrace_shape action o s hcart
  have hshape : (handleBillFinalization action o s).2
      = Effect.setIsProcessing true :: Effect.postUpdateStock (stockItems s.cart)
          :: (mid ++ [Effect.setIsProcessing false]) := htrace
  refine ⟨⟨_, mid, hshape, hmid⟩, ?_, ?_, ?_⟩
  · intro k hk1 hk2
    rw [hshape] at hk2 ⊢
    obtain ⟨j, rfl⟩ : ∃ j, k = j + 1 := ⟨k - 1, by omega⟩
    have hj : j ≤ (Effect.postUpdateStock (stockItems s.cart) :: mid).length := by
      simp only [List.length_cons, List.length_append, List.length_nil] at hk2 ⊢
      omega
    have htake : List.take j (Effect.postUpdateStock (stockItems s.cart)
          :: (mid ++ [Effect.setIsProcessing false]))
        = List.take j (Effect.postUpdateStock (stockItems s.cart) :: mid) := by
      rw [← List.cons_append]
      exact List.take_append_of_le_length hj
    simp only [stateAfter, List.take_succ_cons, List.foldl_cons, htake]
    rw [foldl_keeps_isProcessing]
    · rfl
    · intro e he
      rcases List.mem_cons.mp (List.mem_of_mem_take he) with h | h
      · rw [h]; rfl
      · exact hmid e h
  · have hcons : Effect.setIsProcessing true :: Effect.postUpdateStock (stockItems s.cart)
          :: (mid ++ [Effect.setIsProcessing false])
        = (Effect.setIsProcessing true :: Effect.postUpdateStock (stockItems s.cart) :: mid)
            ++ [Effect.setIsProcessing false] := by
      simp
    simp only [handleBillFinalization, htrace, hcons, List.foldl_append, List.foldl_cons,
      List.foldl_nil, applyEffect]
  · intro st hst
    simp [printDisabled, downloadDisabled, hst]

/-- C16 (witness): a one-row cart whose update-stock request is rejected: the
flag is true after the request and false at the end. -/
theorem finalization_processing_flag_witness :
    (stateAfter 2
      (handleBillFinalization "print" ⟨PostOutcome.failed none, false, false⟩
        { initialState with
          cart := [{ product := { _id := "p1", name := "Pen", price := 10, stock := 5 },
                     quantity := some 2 }] }).2
      { initialState with
        cart := [{ product := { _id := "p1", name := "Pen", price := 10, stock := 5 },
                   quantity := some 2 }] }).isProcessing = true ∧
    (handleBillFinalization "print" ⟨PostOutcome.failed none, false, false⟩
      { initialState with
        cart := [{ product := { _id := "p1", name := "Pen", price := 10, stock := 5 },
                   quantity := some 2 }] }).1.isProcessing = false :=
  have h := finalization_processing_flag "print" ⟨PostOutcome.failed none, false, false⟩
    { initialState with
      cart := [{ product := { _id := "p1", name := "Pen", price := 10, stock := 5 },
                 quantity := some 2 }] }
    (by decide)
  ⟨h.2.1 2 (by decide) (by decide), h.2.2.1⟩

end Billing
